import Mathlib

/-!
Shallow embedding of the BookNest catalog import/export pipeline
(`backend/app/routers/import_export.py` together with the entity helpers in
`backend/app/routers/books.py` and the `ImportResult` schema), with theorems
about the three import endpoints (tracker CSV, generic CSV, JSON) and the
two generic exporters.

Modelling conventions:
* Python strings are Lean `String`s; the Python helpers `str.strip`,
  `str.split(',')`, `str.lower`, `', '.join` are translated as explicit
  functions on `List Char` / `String` below.
* Uploaded bytes are `List Nat` (each element a byte value).
* A `csv.DictReader` row is an association list from column name to
  `Option String`, where `none` models Python `None` (a short row); a missing
  key models a column absent from the header.
* JSON documents are the inductive `JValue`; JSON numbers are modelled for
  integer values (no claim concerns fractional JSON numbers).
* The SQLAlchemy session/store is the explicit state `DB`; `db.commit()`
  cannot fail in the model, and autoflush side effects of queries are out of
  scope.  Exceptions are `Except` values carrying the partially mutated
  state where the source keeps mutating the session.
* Parsed `float` values are exact rationals; every concrete input used in a
  theorem below has the same behaviour for binary doubles and rationals.
-/

namespace BookNest

/-- Whitespace characters recognised by Python `str.strip()` (ASCII part). -/
def isPySpace (c : Char) : Bool :=
  c = ' ' || c = '\t' || c = '\n' || c = '\r' || c = '\x0b' || c = '\x0c'

/-- Python `str.strip()` on a character list. -/
def pyStrip (s : List Char) : List Char :=
  ((s.dropWhile isPySpace).reverse.dropWhile isPySpace).reverse

/-- Python `str.strip()` on a `String`. -/
def strStrip (s : String) : String := String.mk (pyStrip s.data)

/-- Python `str.lower()` on one character, modelled for the basic Latin and
Cyrillic letters (the ranges every input in this repository uses). -/
def pyLowerChar (c : Char) : Char :=
  if ('A' ≤ c ∧ c ≤ 'Z') ∨ ('А' ≤ c ∧ c ≤ 'Я') then Char.ofNat (c.toNat + 32)
  else if c = 'Ё' then 'ё'
  else c

/-- Python `str.lower()`. -/
def pyLower (s : String) : String := String.mk (s.data.map pyLowerChar)

/-- Python `str.split(sep)` for a one-character separator. -/
def splitOnCh (sep : Char) : List Char → List (List Char)
  | [] => [[]]
  | c :: cs =>
    match splitOnCh sep cs with
    | [] => [[]]
    | g :: gs => if c = sep then [] :: g :: gs else (c :: g) :: gs

/-- The list comprehension `[a.strip() for a in s.split(',') if a.strip()]`. -/
def parseNames (s : String) : List String :=
  (splitOnCh ',' s.data).filterMap fun cs =>
    let t := pyStrip cs
    if t = [] then none else some (String.mk t)

/-- Python `', '.join(names)`. -/
def joinCS : List String → String
  | [] => ""
  | [n] => n
  | n :: rest => n ++ ", " ++ joinCS rest

/-- Python `pat in s` substring test (for non-empty `pat`). -/
def strContains (s pat : String) : Bool :=
  subOcc pat.data s.data
where
  subOcc (pat : List Char) : List Char → Bool
    | [] => pat.isEmpty
    | c :: cs => pat.isPrefixOf (c :: cs) || subOcc pat cs

/-- Value of a non-empty all-digit character list, else `none`. -/
def digitsVal (cs : List Char) : Option Nat :=
  if cs = [] then none
  else if cs.all Char.isDigit then
    some (cs.foldl (fun a c => 10 * a + (c.toNat - 48)) 0)
  else none

/-- Python `int(s)` for decimal literals (optional sign, surrounding
whitespace); any other input raises `ValueError`, modelled as `none`. -/
def pyInt (s : String) : Option ℤ :=
  match pyStrip s.data with
  | '+' :: cs => (digitsVal cs).map Int.ofNat
  | '-' :: cs => (digitsVal cs).map fun n => -(n : ℤ)
  | cs => (digitsVal cs).map Int.ofNat

/-- Magnitude of a decimal literal with an optional fractional part. -/
def pyFloatMag (cs : List Char) : Option ℚ :=
  match splitOnCh '.' cs with
  | [ip] => (digitsVal ip).map fun n => (n : ℚ)
  | [ip, fp] =>
    if ip = [] && fp = [] then none
    else
      match (if ip = [] then some 0 else digitsVal ip),
            (if fp = [] then some 0 else digitsVal fp) with
      | some a, some b => some ((a : ℚ) + (b : ℚ) / ((10 : ℚ) ^ fp.length))
      | _, _ => none
  | _ => none

/-- Python `float(s)` for finite decimal literals (optional sign and
fraction, surrounding whitespace); the exotic forms (`inf`, `nan`,
exponents) are outside the modelled scope. -/
def pyFloat (s : String) : Option ℚ :=
  match pyStrip s.data with
  | '+' :: cs => pyFloatMag cs
  | '-' :: cs => (pyFloatMag cs).map Neg.neg
  | cs => pyFloatMag cs

/-- Python `int(q)` on a real value: truncation toward zero. -/
def ratTrunc (q : ℚ) : ℤ := if 0 ≤ q then ⌊q⌋ else ⌈q⌉

/-- The tracker-rating normalisation block of `import_from_booktracker`
(lines 200–213), applied to the parsed numeric rating:
`if rating <= 5: rating = int(rating * 2) else: rating = int(rating);
 if 1 <= rating <= 10: book.rating = rating`. -/
def trackerRatingNum (q : ℚ) : Option ℤ :=
  let r : ℤ := if q ≤ 5 then ratTrunc (q * 2) else ratTrunc q
  if 1 ≤ r ∧ r ≤ 10 then some r else none

/-- The full rating handling for a non-empty `userRating` cell:
`float(rating_str)` (`ValueError` leaves the rating unset) followed by the
normalisation block. -/
def trackerRatingStr (s : String) : Option ℤ :=
  (pyFloat s).bind trackerRatingNum

/-! ### Encodings tried by the generic CSV importer -/

/-- The encodings named in `import_from_csv` (line 315). -/
inductive PyEncoding where
  | utf8
  | cp1251
  | latin1
deriving DecidableEq

/-- UTF-8 continuation byte. -/
def utf8Cont (b : Nat) : Bool := 0x80 ≤ b && b < 0xC0

/-- Strict UTF-8 validity (RFC 3629: overlong forms, surrogates and values
above U+10FFFF are rejected), modelling `bytes.decode('utf-8')` success. -/
def utf8Valid : List Nat → Bool
  | [] => true
  | b :: rest =>
    if b < 0x80 then utf8Valid rest
    else if b < 0xC2 then false
    else if b < 0xE0 then
      match rest with
      | c1 :: r => utf8Cont c1 && utf8Valid r
      | [] => false
    else if b < 0xF0 then
      match rest with
      | c1 :: c2 :: r =>
        utf8Cont c1 && utf8Cont c2 &&
        (decide (b ≠ 0xE0) || decide (0xA0 ≤ c1)) &&
        (decide (b ≠ 0xED) || decide (c1 < 0xA0)) && utf8Valid r
      | _ => false
    else if b < 0xF5 then
      match rest with
      | c1 :: c2 :: c3 :: r =>
        utf8Cont c1 && utf8Cont c2 && utf8Cont c3 &&
        (decide (b ≠ 0xF0) || decide (0x90 ≤ c1)) &&
        (decide (b ≠ 0xF4) || decide (c1 < 0x90)) && utf8Valid r
      | _ => false
    else false

/-- `bytes.decode('cp1251')` succeeds for every byte except the single
unassigned code point 0x98. -/
def cp1251Valid (bs : List Nat) : Bool := bs.all (· ≠ 0x98)

/-- `bytes.decode('latin-1')` succeeds for every byte sequence: Latin-1
assigns a character to all 256 byte values. -/
def latin1Valid (_ : List Nat) : Bool := true

/-- Whether `content.decode(e)` succeeds. -/
def decodeOk : PyEncoding → List Nat → Bool
  | .utf8, bs => utf8Valid bs
  | .cp1251, bs => cp1251Valid bs
  | .latin1, bs => latin1Valid bs

/-- The `for encoding in [...]` / `else: raise HTTPException(400, ...)` loop
of `import_from_csv` (lines 315–322); the `.error` case models the
`for`-`else` raise. -/
def tryEncodings : List PyEncoding → List Nat → Except String PyEncoding
  | [], _ => .error "Не удалось определить кодировку файла"
  | e :: es, content =>
    if decodeOk e content then .ok e else tryEncodings es content

/-- The encoding selection performed by the generic CSV importer. -/
def csvDecodePick (content : List Nat) : Except String PyEncoding :=
  tryEncodings [.utf8, .cp1251, .latin1] content

/-- Stated from the claim: the first of UTF-8, cp1251, Latin-1 that decodes
the bytes without error. -/
def firstCleanEncoding (content : List Nat) : PyEncoding :=
  if utf8Valid content then .utf8
  else if cp1251Valid content then .cp1251
  else .latin1

/-! ### Data model -/

/-- A JSON value (`json.loads` output); numbers are modelled for integer
values, which covers every numeric field any claim touches. -/
inductive JValue where
  | jnull
  | jstr (s : String)
  | jint (n : ℤ)
  | jlist (xs : List JValue)
  | jobj (fields : List (String × JValue))

/-- Python truthiness of a JSON value. -/
def jTruthy : JValue → Bool
  | .jnull => false
  | .jstr s => s ≠ ""
  | .jint n => n ≠ 0
  | .jlist xs => !xs.isEmpty
  | .jobj fs => !fs.isEmpty

/-- The Python type name of a JSON value, used in exception messages. -/
def jTypeName : JValue → String
  | .jnull => "NoneType"
  | .jstr _ => "str"
  | .jint _ => "int"
  | .jlist _ => "list"
  | .jobj _ => "dict"

/-- `dict.get(key)` on a parsed JSON object (first binding wins, matching a
Python dict built from unique keys). -/
def jlookup (fields : List (String × JValue)) (key : String) : Option JValue :=
  (fields.find? fun p => p.1 = key).map Prod.snd

/-- `dict.get(key, dflt)` on a parsed JSON object. -/
def jgetD (fields : List (String × JValue)) (key : String) (dflt : JValue) :
    JValue :=
  (jlookup fields key).getD dflt

/-- A `csv.DictReader` row: column name to cell, `none` modelling Python
`None` (the `restval` of a short row). -/
def Row := List (String × Option String)

/-- `row.get(key, dflt)`: `none` only when the stored value is Python
`None`. -/
def rowGetD (row : Row) (key dflt : String) : Option String :=
  match row.find? fun p => p.1 = key with
  | none => some dflt
  | some p => p.2

/-- `row.get(key)` with no default. -/
def rowGetN (row : Row) (key : String) : Option String :=
  match row.find? fun p => p.1 = key with
  | none => none
  | some p => p.2

/-- A Python exception relevant to the import loops. -/
inductive PyErr where
  | attrErr (ty meth : String)
  | typeErr (ty : String)

/-- `str(e)` for the modelled exceptions. -/
def pyErrMsg : PyErr → String
  | .attrErr ty meth =>
    "\x27" ++ ty ++ "\x27 object has no attribute \x27" ++ meth ++ "\x27"
  | .typeErr ty => "\x27" ++ ty ++ "\x27 object is not iterable"

/-- `row.get(key, dflt).strip()`: raises `AttributeError` on a `None`
cell. -/
def getStrip (row : Row) (key dflt : String) : Except PyErr String :=
  match rowGetD row key dflt with
  | some s => .ok (strStrip s)
  | none => .error (.attrErr "NoneType" "strip")

/-- Python `x or y` on optional strings (`None` and `''` are falsy). -/
def pyOrS (x y : Option String) : Option String :=
  match x with
  | some s => if s = "" then y else some s
  | none => y

/-- Python `x or y` where `y` is a plain string. -/
def pyOrStr (x y : String) : String := if x = "" then y else x

/-- `cell.split(',')`'s receiver check: a `None` cell raises
`AttributeError` before the split. -/
def splitCell (v : Option String) : Except PyErr String :=
  match v with
  | some s => .ok s
  | none => .error (.attrErr "NoneType" "split")

/-- `first or row.get(key, '').strip()`: the second strip (and its
possible `AttributeError`) is evaluated only when the first operand is
falsy. -/
def pyOrStrip (first : String) (row : Row) (key : String) :
    Except PyErr String :=
  if first = "" then getStrip row key "" else .ok first

/-- A persisted catalog book.  Scalar columns hold the raw value the route
assigned (`JValue`, since the JSON importer assigns JSON values verbatim);
the CSV routes always assign strings/integers.  `started_at`/`finished_at`,
`external_id` and server-generated timestamps carry no claim and are not
recorded. -/
structure DBBook where
  title : String
  subtitle : JValue := .jnull
  description : JValue := .jnull
  language : JValue := .jstr "ru"
  format : JValue := .jstr "paper"
  status : JValue := .jstr "planned"
  totalPages : JValue := .jnull
  currentPage : JValue := .jint 0
  rating : JValue := .jnull
  notes : JValue := .jnull
  quotes : JValue := .jlist []
  location : JValue := .jnull
  coverUrl : JValue := .jnull
  publishedYear : JValue := .jnull
  isbn : JValue := .jnull
  authorNames : List String := []
  genreNames : List String := []

/-- The catalog store: books plus the `authors`/`genres` entity tables
(entities are identified by their unique `name`). -/
structure DB where
  books : List DBBook := []
  authors : List String := []
  genres : List String := []

/-- The `ImportResult` response schema. -/
structure ImportResult where
  success : Nat := 0
  failed : Nat := 0
  skipped : Nat := 0
  errors : List String := []

/-- `get_or_create_author` (`routers/books.py` lines 20–27): exact-name
lookup, creating the entity when absent. -/
def get_or_create_author (db : DB) (name : String) : DB :=
  if name ∈ db.authors then db
  else { db with authors := db.authors ++ [name] }

/-- `get_or_create_genre` (`routers/books.py` lines 30–37). -/
def get_or_create_genre (db : DB) (name : String) : DB :=
  if name ∈ db.genres then db
  else { db with genres := db.genres ++ [name] }

/-- Outcome of processing one input record. -/
inductive Outcome where
  | success
  | skipped (msg : String)
  | failed (msg : String)

/-- Fold one record outcome into the running `ImportResult`. -/
def applyOutcome (r : ImportResult) : Outcome → ImportResult
  | .success => { r with success := r.success + 1 }
  | .skipped m => { r with skipped := r.skipped + 1, errors := r.errors ++ [m] }
  | .failed m => { r with failed := r.failed + 1, errors := r.errors ++ [m] }

/-- The shared `for row_num, row in enumerate(...)` loop: each record is
processed by `step` (which returns the state handed to the next record),
its outcome is folded into the result, and processing continues. -/
def runImport (step : DB → α → Nat → Outcome × DB) :
    List α → DB → Nat → ImportResult → ImportResult × DB
  | [], db, _, acc => (acc, db)
  | x :: xs, db, n, acc =>
    let (o, db') := step db x n
    runImport step xs db' (n + 1) (applyOutcome acc o)

/-! ### Tracker-CSV import (`import_from_booktracker`) -/

/-- `map_reading_status` (lines 59–78); the arguments model
`row.get('readingStatus', '')` / `row.get('state', '')`, which can be
Python `None` for a short row (the function is `None`-safe via `or ''`). -/
def map_reading_status (status state : Option String) : String :=
  let status_lower := pyLower (status.getD "")
  if status_lower = "read" then "finished"
  else if status_lower = "reading" then "reading"
  else if status_lower = "want_to_read" then "planned"
  else if status_lower = "on_hold" then "on_hold"
  else if status_lower = "dropped" then "dropped"
  else
    let state_lower := pyLower (state.getD "")
    if state_lower = "bookshelf" || state_lower = "owned" then "planned"
    else "planned"

/-- `map_book_format` (lines 81–94). -/
def map_book_format (types : Option String) : String :=
  let types_lower := pyLower (types.getD "")
  if strContains types_lower "audiobook" then "audiobook"
  else if strContains types_lower "ebook" || strContains types_lower "e-book"
    then "ebook"
  else if strContains types_lower "hardcover" then "paper"
  else if strContains types_lower "paperback" then "paper"
  else "paper"

/-- `'' if s == '' else s`-style storage of optional text columns
(`... .strip() or None`). -/
def emptyToNull (s : String) : JValue :=
  if s = "" then .jnull else .jstr s

/-- Result of building one tracker record before the entity loops. -/
inductive TrackerRes where
  | emptyTitle
  | dup (title : String)
  | book (b : DBBook) (authors genres : List String)

/-- The author loop of `import_from_booktracker` (lines 244–251): a
record-local lowercase seen-set, then `get_or_create_author`, attaching the
entity only when not already attached to this book. -/
def trackerAuthorLoop :
    DB → List String → List String → List String → DB × List String
  | db, _, attached, [] => (db, attached)
  | db, seen, attached, name :: rest =>
    let lower := strStrip (pyLower name)
    if lower ≠ "" && !(seen.contains lower) then
      let db' := get_or_create_author db name
      let attached' :=
        if attached.contains name then attached else attached ++ [name]
      trackerAuthorLoop db' (seen ++ [lower]) attached' rest
    else
      trackerAuthorLoop db seen attached rest

/-- The genre loop of `import_from_booktracker` (lines 254–261). -/
def trackerGenreLoop :
    DB → List String → List String → List String → DB × List String
  | db, _, attached, [] => (db, attached)
  | db, seen, attached, name :: rest =>
    let lower := strStrip (pyLower name)
    if lower ≠ "" && !(seen.contains lower) then
      let db' := get_or_create_genre db name
      let attached' :=
        if attached.contains name then attached else attached ++ [name]
      trackerGenreLoop db' (seen ++ [lower]) attached' rest
    else
      trackerGenreLoop db seen attached rest

/-- The body of one `import_from_booktracker` iteration up to `db.add`
(lines 140–237), in source order; every modelled exception precedes the
record's first write. -/
def trackerBuild (db : DB) (row : Row) : Except PyErr TrackerRes := do
  let title ← getStrip row "title" ""
  if title = "" then return .emptyTitle
  if db.books.any fun b => b.title = title then return .dup title
  let authorsStr ← splitCell (rowGetD row "authors" "")
  let authors := parseNames authorsStr
  let catsStr ←
    splitCell (pyOrS (rowGetD row "categories" "") (rowGetD row "tags" ""))
  let genres := parseNames catsStr
  let reading_status :=
    map_reading_status (rowGetD row "readingStatus" "") (rowGetD row "state" "")
  let book_format := map_book_format (rowGetD row "types" "")
  let lang0 ← getStrip row "languages" "ru"
  let language := pyOrStr lang0 "ru"
  let language :=
    if strContains language "," then
      strStrip (String.mk ((splitOnCh ',' language.data).headD []))
    else language
  let subtitle ← getStrip row "subtitle" ""
  let description ← getStrip row "description" ""
  let location ← getStrip row "location" ""
  let cover1 ← getStrip row "remoteImageUrl" ""
  let cover ← pyOrStrip cover1 row "thumbnailRemoteImageUrl"
  let isbn1 ← getStrip row "isbn13" ""
  let isbn ← pyOrStrip isbn1 row "isbn10"
  let pagesStr ← getStrip row "pages" ""
  let totalPages : JValue :=
    if pagesStr ≠ "" then
      match pyInt pagesStr with
      | some p => .jint p
      | none => .jnull
    else .jnull
  let ratingStr ← getStrip row "userRating" ""
  let rating : JValue :=
    if ratingStr ≠ "" then
      match trackerRatingStr ratingStr with
      | some r => .jint r
      | none => .jnull
    else .jnull
  let ry1 ← getStrip row "releaseYear" ""
  let ry ← pyOrStrip ry1 row "originalReleaseYear"
  let publishedYear : JValue :=
    if ry ≠ "" then
      match pyInt ry with
      | some y => .jint y
      | none => .jnull
    else .jnull
  -- the reading dates carry no claim; the strips keep the exception
  -- behaviour of lines 224–225
  let _ ← getStrip row "startReading" ""
  let _ ← getStrip row "endReading" ""
  let currentPage : JValue :=
    if reading_status = "finished" && jTruthy totalPages then totalPages
    else .jint 0
  return .book
    { title := title
      subtitle := emptyToNull subtitle
      description := emptyToNull description
      language := .jstr (language.take 10)
      format := .jstr book_format
      status := .jstr reading_status
      totalPages := totalPages
      currentPage := currentPage
      rating := rating
      location := emptyToNull location
      coverUrl := emptyToNull cover
      publishedYear := publishedYear
      isbn := emptyToNull isbn }
    authors genres

/-- One `import_from_booktracker` iteration (lines 138–272).  Failure
branches hand the pre-record state to the next iteration: the per-record
`db.rollback()` restores the last per-record commit. -/
def trackerStep (db : DB) (row : Row) (n : Nat) : Outcome × DB :=
  match trackerBuild db row with
  | .error e => (.failed ("Строка " ++ toString n ++ ": " ++ pyErrMsg e), db)
  | .ok .emptyTitle => (.failed ("Строка " ++ toString n ++ ": пустое название"), db)
  | .ok (.dup title) =>
    (.skipped ("Строка " ++ toString n ++ ": книга \x27" ++ title ++
      "\x27 уже существует"), db)
  | .ok (.book b authors genres) =>
    let (db1, aNames) := trackerAuthorLoop db [] [] authors
    let (db2, gNames) := trackerGenreLoop db1 [] [] genres
    (.success,
      { db2 with books := db2.books ++
          [{ b with authorNames := aNames, genreNames := gNames }] })

/-! ### Generic CSV import (`import_from_csv`) -/

/-- The body of one `import_from_csv` iteration up to the entity loops
(lines 328–379), in source order; `none` is the empty-title branch.  Every
modelled exception precedes the record's first write, so the absence of a
per-record rollback on this path has no observable effect in the model. -/
def csvBuild (row : Row) :
    Except PyErr (Option (DBBook × List String × List String)) := do
  let title ← getStrip row "title" ""
  if title = "" then return none
  let authorsStr ←
    splitCell (pyOrS (rowGetD row "authors" "") (rowGetD row "author" ""))
  let authors := parseNames authorsStr
  let genresStr ←
    splitCell (pyOrS (rowGetD row "genres" "") (rowGetD row "genre" ""))
  let genres := parseNames genresStr
  let subtitle ← getStrip row "subtitle" ""
  let description ← getStrip row "description" ""
  let language ← getStrip row "language" "ru"
  let format ← getStrip row "format" "paper"
  let status ← getStrip row "status" "planned"
  let location ← getStrip row "location" ""
  let notes ← getStrip row "notes" ""
  let totalPages : JValue :=
    match rowGetN row "total_pages" with
    | some s =>
      if s ≠ "" then
        match pyInt s with
        | some p => .jint p
        | none => .jnull
      else .jnull
    | none => .jnull
  let currentPage : JValue :=
    match rowGetN row "current_page" with
    | some s =>
      if s ≠ "" then
        match pyInt s with
        | some p => .jint p
        | none => .jint 0
      else .jint 0
    | none => .jint 0
  let rating : JValue :=
    match rowGetN row "rating" with
    | some s =>
      if s ≠ "" then
        match pyInt s with
        | some r => if 1 ≤ r ∧ r ≤ 10 then .jint r else .jnull
        | none => .jnull
      else .jnull
    | none => .jnull
  let publishedYear : JValue :=
    match rowGetN row "published_year" with
    | some s =>
      if s ≠ "" then
        match pyInt s with
        | some y => .jint y
        | none => .jnull
      else .jnull
    | none => .jnull
  return some (
    { title := title
      subtitle := emptyToNull subtitle
      description := emptyToNull description
      language := .jstr (pyOrStr language "ru")
      format := .jstr (pyOrStr format "paper")
      status := .jstr (pyOrStr status "planned")
      totalPages := totalPages
      currentPage := currentPage
      rating := rating
      notes := emptyToNull notes
      location := emptyToNull location
      publishedYear := publishedYear },
    authors, genres)

/-- One `import_from_csv` iteration (lines 326–395): no duplicate-title
check, `book.authors.append`/`book.genres.append` without deduplication,
and no per-record rollback (failure branches keep the session state). -/
def csvStep (db : DB) (row : Row) (n : Nat) : Outcome × DB :=
  match csvBuild row with
  | .error e => (.failed ("Строка " ++ toString n ++ ": " ++ pyErrMsg e), db)
  | .ok none => (.failed ("Строка " ++ toString n ++ ": пустое название"), db)
  | .ok (some (b, authors, genres)) =>
    let db1 := authors.foldl get_or_create_author db
    let db2 := genres.foldl get_or_create_genre db1
    (.success,
      { db2 with books := db2.books ++
          [{ b with authorNames := authors, genreNames := genres }] })

/-! ### JSON import (`import_from_json`) -/

/-- Python iteration over a JSON value: lists yield elements, dicts their
keys, strings their characters; `None` and numbers raise `TypeError`. -/
def jsonIterable : JValue → Except PyErr (List JValue)
  | .jlist xs => .ok xs
  | .jobj fs => .ok (fs.map fun p => .jstr p.1)
  | .jstr s => .ok (s.data.map fun c => .jstr (String.mk [c]))
  | .jnull => .error (.typeErr "NoneType")
  | .jint _ => .error (.typeErr "int")

/-- `v.strip()` on a JSON field value. -/
def jStripField : JValue → Except PyErr String
  | .jstr s => .ok (strStrip s)
  | w => .error (.attrErr (jTypeName w) "strip")

/-- `if isinstance(x, str): x = [x]` (lines 451–452 and 460–461). -/
def wrapStr : JValue → JValue
  | .jstr s => .jlist [.jstr s]
  | w => w

/-- The author loop of `import_from_json` (lines 453–456): truthy entries
are stripped and resolved; a non-string truthy entry raises mid-loop, and
the error carries the partially mutated session. -/
def jsonResolveAuthors :
    DB → List String → List JValue → Except (PyErr × DB) (DB × List String)
  | db, acc, [] => .ok (db, acc)
  | db, acc, v :: vs =>
    if jTruthy v then
      match v with
      | .jstr s =>
        jsonResolveAuthors (get_or_create_author db (strStrip s))
          (acc ++ [strStrip s]) vs
      | w => .error (.attrErr (jTypeName w) "strip", db)
    else jsonResolveAuthors db acc vs

/-- The genre loop of `import_from_json` (lines 462–465). -/
def jsonResolveGenres :
    DB → List String → List JValue → Except (PyErr × DB) (DB × List String)
  | db, acc, [] => .ok (db, acc)
  | db, acc, v :: vs =>
    if jTruthy v then
      match v with
      | .jstr s =>
        jsonResolveGenres (get_or_create_genre db (strStrip s))
          (acc ++ [strStrip s]) vs
      | w => .error (.attrErr (jTypeName w) "strip", db)
    else jsonResolveGenres db acc vs

/-- One `import_from_json` iteration (lines 423–472): no duplicate-title
check and no per-record rollback — a failure after entity creation keeps
those entities in the session, and `db.commit()` persists them. -/
def jsonStep (db : DB) (v : JValue) (i : Nat) : Outcome × DB :=
  let pos := "Книга " ++ toString (i + 1) ++ ": "
  match v with
  | .jobj fields =>
    (match jStripField (jgetD fields "title" (.jstr "")) with
     | .error e => (.failed (pos ++ pyErrMsg e), db)
     | .ok title =>
       if title = "" then (.failed (pos ++ "пустое название"), db)
       else
         let b : DBBook :=
           { title := title
             subtitle := jgetD fields "subtitle" .jnull
             description := jgetD fields "description" .jnull
             language := jgetD fields "language" (.jstr "ru")
             format := jgetD fields "format" (.jstr "paper")
             status := jgetD fields "status" (.jstr "planned")
             totalPages := jgetD fields "total_pages" .jnull
             currentPage := jgetD fields "current_page" (.jint 0)
             rating := jgetD fields "rating" .jnull
             notes := jgetD fields "notes" .jnull
             quotes := jgetD fields "quotes" (.jlist [])
             location := jgetD fields "location" .jnull
             coverUrl := jgetD fields "cover_url" .jnull
             publishedYear := jgetD fields "published_year" .jnull
             isbn := jgetD fields "isbn" .jnull }
         let authorsRaw := wrapStr (jgetD fields "authors" (.jlist []))
         match jsonIterable authorsRaw with
         | .error e => (.failed (pos ++ pyErrMsg e), db)
         | .ok aItems =>
           match jsonResolveAuthors db [] aItems with
           | .error (e, dbp) => (.failed (pos ++ pyErrMsg e), dbp)
           | .ok (db1, aNames) =>
             let genresRaw := wrapStr (jgetD fields "genres" (.jlist []))
             match jsonIterable genresRaw with
             | .error e => (.failed (pos ++ pyErrMsg e), db1)
             | .ok gItems =>
               match jsonResolveGenres db1 [] gItems with
               | .error (e, dbp) => (.failed (pos ++ pyErrMsg e), dbp)
               | .ok (db2, gNames) =>
                 (.success,
                   { db2 with books := db2.books ++
                       [{ b with authorNames := aNames,
                                 genreNames := gNames }] }))
  | w => (.failed (pos ++ pyErrMsg (.attrErr (jTypeName w) "get")), db)

/-- `books_data = data if isinstance(data, list) else data.get('books', [])`
plus `enumerate(books_data)` (lines 421–423); a non-iterable value reaches
the outer `except Exception` and becomes a fatal 500 response. -/
def jsonBooksData : JValue → Except String (List JValue)
  | .jlist xs => .ok xs
  | .jobj fields =>
    match jlookup fields "books" with
    | none => .ok []
    | some v =>
      match jsonIterable v with
      | .ok xs => .ok xs
      | .error e => .error ("Ошибка импорта: " ++ pyErrMsg e)
  | w => .error ("Ошибка импорта: " ++ pyErrMsg (.attrErr (jTypeName w) "get"))

/-! ### Endpoint wrappers -/

/-- The record loop of `import_from_booktracker`; `enumerate(reader,
start=2)` numbers the first data record 2. -/
def import_from_booktracker (rows : List Row) (db : DB) : ImportResult × DB :=
  runImport trackerStep rows db 2 {}

/-- The record loop of `import_from_csv` (same `start=2` numbering). -/
def import_from_csv (rows : List Row) (db : DB) : ImportResult × DB :=
  runImport csvStep rows db 2 {}

/-- `import_from_json` on the parsed upload: `none` models a body
`json.loads` rejects (fatal 400 with no result object); other fatal shapes
come from `jsonBooksData`.  A fatal error is an `.error` response carrying
no `ImportResult`. -/
def import_from_json (input : Option JValue) (db : DB) :
    Except String (ImportResult × DB) :=
  match input with
  | none => .error "Ошибка парсинга JSON"
  | some data =>
    match jsonBooksData data with
    | .error e => .error e
    | .ok recs => .ok (runImport jsonStep recs db 0 {})

/-! ### Export (`export_to_csv`, `export_to_json`) -/

/-- `str()`/csv-writer rendering of a stored cell value (the csv module
writes `None` as the empty string); the `str()` rendering of stored
containers is outside the modelled scope and no claim evaluates it. -/
def cellStr : JValue → String
  | .jnull => ""
  | .jstr s => s
  | .jint n => toString n
  | .jlist _ => ""
  | .jobj _ => ""

/-- `value or ''` before writing a cell. -/
def jOrBlank (v : JValue) : String := if jTruthy v then cellStr v else ""

/-- One `export_to_csv` data row (lines 503–528), restricted to the columns
the generic importer consults; the remaining exported columns (`id`,
`progress`, the timestamps, `cover_url`, `isbn`) are never read back by
`import_from_csv`. -/
def export_to_csv_row (b : DBBook) : Row :=
  [("title", some b.title),
   ("subtitle", some (jOrBlank b.subtitle)),
   ("authors", some (joinCS b.authorNames)),
   ("genres", some (joinCS b.genreNames)),
   ("language", some (cellStr b.language)),
   ("format", some (cellStr b.format)),
   ("status", some (cellStr b.status)),
   ("total_pages", some (jOrBlank b.totalPages)),
   ("current_page",
     some (cellStr (if jTruthy b.currentPage then b.currentPage else .jint 0))),
   ("rating", some (jOrBlank b.rating)),
   ("notes", some (jOrBlank b.notes)),
   ("location", some (jOrBlank b.location)),
   ("published_year", some (jOrBlank b.publishedYear))]

/-- `export_to_csv`: one row per catalog book. -/
def export_to_csv (db : DB) : List Row := db.books.map export_to_csv_row

/-- One `export_to_json` record (lines 556–580), restricted to the keys the
JSON importer consults (`id`, `progress` and the timestamps are never read
back). -/
def export_to_json_book (b : DBBook) : JValue :=
  .jobj [("title", .jstr b.title),
         ("subtitle", b.subtitle),
         ("authors", .jlist (b.authorNames.map .jstr)),
         ("genres", .jlist (b.genreNames.map .jstr)),
         ("description", b.description),
         ("language", b.language),
         ("format", b.format),
         ("status", b.status),
         ("total_pages", b.totalPages),
         ("current_page", b.currentPage),
         ("rating", b.rating),
         ("notes", b.notes),
         ("quotes", b.quotes),
         ("location", b.location),
         ("cover_url", b.coverUrl),
         ("published_year", b.publishedYear),
         ("isbn", b.isbn)]

/-- `export_to_json`: the `{"books": [...]}` document. -/
def export_to_json (db : DB) : JValue :=
  .jobj [("books", .jlist (db.books.map export_to_json_book))]

/-! ### Claim-side predicates and spec restatements -/

/-- Modelled from the amended claim: a parsed rating at most 5 is doubled
and truncated toward zero, a larger one is truncated toward zero, and the
result is kept only when it lies in [1, 10]. -/
def amendedRatingRule (q : ℚ) : Option ℤ :=
  let k : ℤ := if q ≤ 5 then ratTrunc (q * 2) else ratTrunc q
  if 1 ≤ k ∧ k ≤ 10 then some k else none

/-- The closed status enumeration of the data model. -/
def statusLits : List String :=
  ["planned", "reading", "finished", "on_hold", "dropped", "wishlist"]

/-- The closed format enumeration of the data model. -/
def formatLits : List String := ["paper", "ebook", "audiobook"]

/-- The fields compared by the round-trip claim: title, status, rating and
the author/genre name multiset (in stored order). -/
def claimFields (b : DBBook) :
    String × JValue × JValue × List String × List String :=
  (b.title, b.status, b.rating, b.authorNames, b.genreNames)

/-- A non-empty string that `strip()` leaves unchanged. -/
def trimmedNE (s : String) : Prop := s ≠ "" ∧ pyStrip s.data = s.data

/-- An entity name that survives the CSV cell round trip: trimmed,
non-empty and comma-free. -/
def csvSafeName (s : String) : Prop := trimmedNE s ∧ ',' ∉ s.data

/-- Hygiene of a stored book for the CSV round trip. -/
def csvHygBook (b : DBBook) : Prop :=
  trimmedNE b.title ∧
  (∀ n ∈ b.authorNames, csvSafeName n) ∧
  (∀ n ∈ b.genreNames, csvSafeName n) ∧
  (∃ s, b.status = .jstr s ∧ trimmedNE s) ∧
  (b.rating = .jnull ∨ ∃ r, b.rating = .jint r ∧ 1 ≤ r ∧ r ≤ 10)

/-- Hygiene of a stored book for the JSON round trip. -/
def jsonHygBook (b : DBBook) : Prop :=
  trimmedNE b.title ∧
  (∀ n ∈ b.authorNames, trimmedNE n) ∧
  (∀ n ∈ b.genreNames, trimmedNE n)

/-- A healthy entity table: no duplicate names, every name trimmed. -/
def entityTableOk (l : List String) : Prop :=
  l.Nodup ∧ ∀ n ∈ l, pyStrip n.data = n.data

/-- A stored rating that satisfies the data-model invariant. -/
def ratingOk : JValue → Prop
  | .jnull => True
  | .jint r => 1 ≤ r ∧ r ≤ 10
  | _ => False

/-- A stored status drawn from the closed enumeration. -/
def statusOk (v : JValue) : Prop := ∃ s, v = .jstr s ∧ s ∈ statusLits

/-- A stored format drawn from the closed enumeration. -/
def formatOk (v : JValue) : Prop := ∃ s, v = .jstr s ∧ s ∈ formatLits

/-- Both entity tables healthy. -/
def tablesOk (db : DB) : Prop :=
  entityTableOk db.authors ∧ entityTableOk db.genres

/-- Case/whitespace folding of an entity name (for the claim that no two
entities differ only by case or surrounding whitespace). -/
def foldName (s : String) : String := pyLower (strStrip s)

/-- The session state carried by a JSON entity-loop result (the partially
mutated session on error). -/
def resDB : Except (PyErr × DB) (DB × List String) → DB
  | .ok (db, _) => db
  | .error (_, db) => db

/-! ### C6 — encoding fallback order of the generic CSV importer -/

/-- C6: the generic CSV import decodes the upload by trying UTF-8, then
cp1251, then Latin-1 in that order and uses the first encoding that decodes
without error.  The claim's second clause quantifies over byte sequences
that none of the three decodes cleanly; no such sequence exists (Latin-1
assigns a character to every byte), which this equality also proves — the
selection never reaches the `for`-`else` failure branch, so the
format-error clause holds vacuously. -/
theorem c6_encoding_order :
    ∀ content : List Nat,
      csvDecodePick content = .ok (firstCleanEncoding content) := by
  intro content
  simp only [csvDecodePick, tryEncodings, decodeOk, latin1Valid,
    firstCleanEncoding]
  split_ifs <;> rfl

/-! ### C5 — tracker rating normalisation -/

theorem floor_43_5 : ⌊(43 / 5 : ℚ)⌋ = 8 := by
  rw [Int.floor_eq_iff]
  norm_num

theorem trackerRatingNum_43_10 : trackerRatingNum (43 / 10) = some 8 := by
  have h : ((43 : ℚ) / 10) * 2 = 43 / 5 := by norm_num
  simp only [trackerRatingNum, ratTrunc]
  rw [if_pos (by norm_num : (43 : ℚ) / 10 ≤ 5), h,
    if_pos (by norm_num : (0 : ℚ) ≤ 43 / 5), floor_43_5]
  norm_num

theorem pyFloat_43 : pyFloat "4.3" = some (43 / 10) := by
  have h2 : pyFloat "4.3" =
      some (((4 : ℕ) : ℚ) + ((3 : ℕ) : ℚ) / (10 : ℚ) ^ (1 : ℕ)) := by rfl
  rw [h2]
  norm_num

theorem pyFloat_45 : pyFloat "4.5" = some (9 / 2) := by
  have h2 : pyFloat "4.5" =
      some (((4 : ℕ) : ℚ) + ((5 : ℕ) : ℚ) / (10 : ℚ) ^ (1 : ℕ)) := by rfl
  rw [h2]
  norm_num

theorem pyFloat_7 : pyFloat "7" = some 7 := by
  have h2 : pyFloat "7" = some (((7 : ℕ) : ℚ)) := by rfl
  rw [h2]
  norm_num

/-- C5 counterexample: for the parseable rating 4.3 the code stores
`int(4.3 * 2) = 8`, not the nearest integer to 8.6, which is 9 — the
"rounded to the nearest integer" clause of the claim is false. -/
theorem c5_counterexample :
    trackerRatingStr "4.3" = some 8 ∧
    round ((43 / 10 : ℚ) * 2) = (9 : ℤ) ∧
    trackerRatingStr "4.3" ≠ some (round ((43 / 10 : ℚ) * 2)) := by
  have hr : round ((43 / 10 : ℚ) * 2) = (9 : ℤ) := by
    have h : ((43 : ℚ) / 10) * 2 = 43 / 5 := by norm_num
    rw [h, round_eq, Int.floor_eq_iff]
    norm_num
  have hv : trackerRatingStr "4.3" = some 8 := by
    rw [trackerRatingStr, pyFloat_43, Option.some_bind, trackerRatingNum_43_10]
  exact ⟨hv, hr, by rw [hv, hr]; decide⟩

/-- C5 amended: for every parseable numeric `userRating` value, the stored
rating is the value multiplied by 2 and truncated toward zero when it is at
most 5, else the value truncated toward zero, and it is kept only when the
result lies in [1, 10]; any stored rating is in [1, 10]; input 4.5
normalises to 9 and input 7 remains 7. -/
theorem c5_amended :
    (∀ s q, pyFloat s = some q → trackerRatingStr s = amendedRatingRule q) ∧
    (∀ q r, trackerRatingNum q = some r → 1 ≤ r ∧ r ≤ 10) ∧
    trackerRatingStr "4.5" = some 9 ∧ trackerRatingStr "7" = some 7 := by
  have hbound : ∀ q r, trackerRatingNum q = some r → 1 ≤ r ∧ r ≤ 10 := by
    intro q r h
    simp only [trackerRatingNum] at h
    split_ifs at h with hq h1 h2 <;>
      first
      | (cases h; assumption)
      | cases h
  refine ⟨?_, hbound, ?_, ?_⟩
  · intro s q h
    rw [trackerRatingStr, h, Option.some_bind]
    rfl
  · rw [trackerRatingStr, pyFloat_45, Option.some_bind]
    have h : ((9 : ℚ) / 2) * 2 = 9 := by norm_num
    simp only [trackerRatingNum, ratTrunc]
    rw [if_pos (by norm_num : (9 : ℚ) / 2 ≤ 5), h,
      if_pos (by norm_num : (0 : ℚ) ≤ 9)]
    norm_num
  · rw [trackerRatingStr, pyFloat_7, Option.some_bind]
    simp only [trackerRatingNum, ratTrunc]
    rw [if_neg (by norm_num : ¬(7 : ℚ) ≤ 5),
      if_pos (by norm_num : (0 : ℚ) ≤ 7)]
    norm_num

/-- C5 amended witness at the concrete rating 4.3. -/
theorem c5_amended_witness :
    trackerRatingStr "4.3" = amendedRatingRule (43 / 10) ∧
    (1 ≤ (8 : ℤ) ∧ (8 : ℤ) ≤ 10) :=
  ⟨c5_amended.1 "4.3" (43 / 10) pyFloat_43,
   c5_amended.2.1 (43 / 10) 8 trackerRatingNum_43_10⟩

/-! ### Generic facts about the record loop -/

theorem runImport_cons (step : DB → α → Nat → Outcome × DB) (x : α)
    (xs : List α) (db : DB) (n : Nat) (acc : ImportResult) :
    runImport step (x :: xs) db n acc =
      runImport step xs (step db x n).2 (n + 1)
        (applyOutcome acc (step db x n).1) := rfl

theorem applyOutcome_counts (acc : ImportResult) (o : Outcome) :
    (applyOutcome acc o).success + (applyOutcome acc o).failed +
      (applyOutcome acc o).skipped =
    acc.success + acc.failed + acc.skipped + 1 := by
  cases o <;> simp [applyOutcome] <;> omega

theorem runImport_counts (step : DB → α → Nat → Outcome × DB) :
    ∀ (xs : List α) (db : DB) (n : Nat) (acc : ImportResult),
      (runImport step xs db n acc).1.success +
        (runImport step xs db n acc).1.failed +
        (runImport step xs db n acc).1.skipped =
      acc.success + acc.failed + acc.skipped + xs.length := by
  intro xs
  induction xs with
  | nil => intro db n acc; simp [runImport]
  | cons x xs ih =>
    intro db n acc
    rw [runImport_cons, ih, applyOutcome_counts]
    simp [List.length_cons]
    omega

/-! ### C9 — result counts partition the input records -/

/-- C9: whenever an import returns a result, `success + failed + skipped`
equals the number of input records, on all three paths (each record's
outcome is folded into exactly one counter); a fatal error instead yields
a single error response carrying no result object (the `.error` branch of
`import_from_json`, shown here for the malformed-JSON case). -/
theorem c9_counts :
    (∀ (rows : List Row) (db : DB),
      (import_from_booktracker rows db).1.success +
        (import_from_booktracker rows db).1.failed +
        (import_from_booktracker rows db).1.skipped = rows.length) ∧
    (∀ (rows : List Row) (db : DB),
      (import_from_csv rows db).1.success +
        (import_from_csv rows db).1.failed +
        (import_from_csv rows db).1.skipped = rows.length) ∧
    (∀ (data : JValue) (db : DB) (recs : List JValue) (res : ImportResult)
        (db2 : DB),
      jsonBooksData data = .ok recs →
      import_from_json (some data) db = .ok (res, db2) →
      res.success + res.failed + res.skipped = recs.length) ∧
    (∀ db : DB, import_from_json none db = .error "Ошибка парсинга JSON") := by
  refine ⟨?_, ?_, ?_, fun _ => rfl⟩
  · intro rows db
    have h := runImport_counts trackerStep rows db 2 {}
    simpa [import_from_booktracker] using h
  · intro rows db
    have h := runImport_counts csvStep rows db 2 {}
    simpa [import_from_csv] using h
  · intro data db recs res db2 h1 h2
    rw [import_from_json, h1] at h2
    injection h2 with h2
    have h := runImport_counts jsonStep recs db 0 {}
    rw [h2] at h
    simpa using h

/-- C9 witness: the JSON conjunct applied to the concrete upload `[]`. -/
theorem c9_counts_witness :
    (0 : Nat) + 0 + 0 = ([] : List JValue).length :=
  c9_counts.2.2.1 (.jlist []) {} [] {} {} rfl rfl

/-! ### Facts about entity resolution -/

theorem goc_author_mem (db : DB) (n : String) :
    n ∈ (get_or_create_author db n).authors := by
  by_cases h : n ∈ db.authors <;> simp [get_or_create_author, h]

theorem goc_genre_mem (db : DB) (n : String) :
    n ∈ (get_or_create_genre db n).genres := by
  by_cases h : n ∈ db.genres <;> simp [get_or_create_genre, h]

theorem goc_author_books (db : DB) (n : String) :
    (get_or_create_author db n).books = db.books := by
  by_cases h : n ∈ db.authors <;> simp [get_or_create_author, h]

theorem goc_genre_books (db : DB) (n : String) :
    (get_or_create_genre db n).books = db.books := by
  by_cases h : n ∈ db.genres <;> simp [get_or_create_genre, h]

theorem goc_author_genres (db : DB) (n : String) :
    (get_or_create_author db n).genres = db.genres := by
  by_cases h : n ∈ db.authors <;> simp [get_or_create_author, h]

theorem goc_genre_authors (db : DB) (n : String) :
    (get_or_create_genre db n).authors = db.authors := by
  by_cases h : n ∈ db.genres <;> simp [get_or_create_genre, h]

theorem goc_author_sub (db : DB) (n : String) :
    ∀ m ∈ (get_or_create_author db n).authors, m ∈ db.authors ∨ m = n := by
  intro m hm
  by_cases h : n ∈ db.authors <;> simp [get_or_create_author, h] at hm
  · exact .inl hm
  · rcases hm with hm | hm
    · exact .inl hm
    · exact .inr hm

theorem goc_genre_sub (db : DB) (n : String) :
    ∀ m ∈ (get_or_create_genre db n).genres, m ∈ db.genres ∨ m = n := by
  intro m hm
  by_cases h : n ∈ db.genres <;> simp [get_or_create_genre, h] at hm
  · exact .inl hm
  · rcases hm with hm | hm
    · exact .inl hm
    · exact .inr hm

/-! ### Preservation lemmas for the loops -/

theorem runImport_pres (step : DB → α → Nat → Outcome × DB) (Q : DB → Prop)
    (hstep : ∀ db x n, Q db → Q (step db x n).2) :
    ∀ (xs : List α) (db : DB) (n : Nat) (acc : ImportResult),
      Q db → Q (runImport step xs db n acc).2 := by
  intro xs
  induction xs with
  | nil => intro db n acc h; exact h
  | cons x xs ih =>
    intro db n acc h
    rw [runImport_cons]
    exact ih _ _ _ (hstep db x n h)

theorem trackerAuthorLoop_books :
    ∀ (names : List String) (db : DB) (seen att : List String),
      (trackerAuthorLoop db seen att names).1.books = db.books := by
  intro names
  induction names with
  | nil => intro db seen att; rfl
  | cons n rest ih =>
    intro db seen att
    simp only [trackerAuthorLoop]
    split
    · rw [ih, goc_author_books]
    · exact ih db seen att

theorem trackerAuthorLoop_genres :
    ∀ (names : List String) (db : DB) (seen att : List String),
      (trackerAuthorLoop db seen att names).1.genres = db.genres := by
  intro names
  induction names with
  | nil => intro db seen att; rfl
  | cons n rest ih =>
    intro db seen att
    simp only [trackerAuthorLoop]
    split
    · rw [ih, goc_author_genres]
    · exact ih db seen att

theorem trackerGenreLoop_books :
    ∀ (names : List String) (db : DB) (seen att : List String),
      (trackerGenreLoop db seen att names).1.books = db.books := by
  intro names
  induction names with
  | nil => intro db seen att; rfl
  | cons n rest ih =>
    intro db seen att
    simp only [trackerGenreLoop]
    split
    · rw [ih, goc_genre_books]
    · exact ih db seen att

theorem trackerGenreLoop_authors :
    ∀ (names : List String) (db : DB) (seen att : List String),
      (trackerGenreLoop db seen att names).1.authors = db.authors := by
  intro names
  induction names with
  | nil => intro db seen att; rfl
  | cons n rest ih =>
    intro db seen att
    simp only [trackerGenreLoop]
    split
    · rw [ih, goc_genre_authors]
    · exact ih db seen att

theorem jsonResolveAuthors_books :
    ∀ (items : List JValue) (db : DB) (acc : List String),
      (resDB (jsonResolveAuthors db acc items)).books = db.books := by
  intro items
  induction items with
  | nil => intro db acc; rfl
  | cons v vs ih =>
    intro db acc
    simp only [jsonResolveAuthors]
    split
    · split
      · rw [ih, goc_author_books]
      · rfl
    · exact ih db acc

theorem jsonResolveGenres_books :
    ∀ (items : List JValue) (db : DB) (acc : List String),
      (resDB (jsonResolveGenres db acc items)).books = db.books := by
  intro items
  induction items with
  | nil => intro db acc; rfl
  | cons v vs ih =>
    intro db acc
    simp only [jsonResolveGenres]
    split
    · split
      · rw [ih, goc_genre_books]
      · rfl
    · exact ih db acc

/-! ### Facts about the tracker mapping functions -/

theorem map_reading_status_mem (s st : Option String) :
    map_reading_status s st ∈ statusLits := by
  simp only [map_reading_status, statusLits]
  split_ifs <;> simp

theorem map_book_format_mem (ty : Option String) :
    map_book_format ty ∈ formatLits := by
  simp only [map_book_format, formatLits]
  split_ifs <;> simp

theorem map_reading_status_default (s st : Option String)
    (h : pyLower (s.getD "") ∉
      (["read", "reading", "want_to_read", "on_hold", "dropped"] :
        List String)) :
    map_reading_status s st = "planned" := by
  have h' := h
  simp only [List.mem_cons, List.mem_singleton, not_or] at h'
  obtain ⟨h1, h2, h3, h4, h5, -⟩ := h'
  simp only [map_reading_status, h1, h2, h3, h4, h5, if_false]
  split_ifs <;> rfl

theorem map_book_format_default (ty : Option String)
    (h1 : strContains (pyLower (ty.getD "")) "audiobook" = false)
    (h2 : strContains (pyLower (ty.getD "")) "ebook" = false)
    (h3 : strContains (pyLower (ty.getD "")) "e-book" = false)
    (h4 : strContains (pyLower (ty.getD "")) "hardcover" = false)
    (h5 : strContains (pyLower (ty.getD "")) "paperback" = false) :
    map_book_format ty = "paper" := by
  simp [map_book_format, h1, h2, h3, h4, h5]

/-! ### Tracing the Except-valued record builders -/

theorem exc_error_bind {ε α β : Type} (err : ε) (f : α → Except ε β) :
    (Except.error err >>= f) = Except.error err := rfl

theorem exc_ok_bind {ε α β : Type} (a : α) (f : α → Except ε β) :
    (Except.ok a >>= f) = f a := rfl

theorem exc_pure {ε α : Type} (a : α) :
    (pure a : Except ε α) = Except.ok a := rfl

theorem exc_bind_eq_ok {ε α β : Type} {e : Except ε α} {f : α → Except ε β}
    {b : β} :
    e >>= f = Except.ok b ↔ ∃ a, e = Except.ok a ∧ f a = Except.ok b := by
  cases e with
  | error err => rw [exc_error_bind]; simp
  | ok a => rw [exc_ok_bind]; simp

theorem trackerRatingStr_bounds (s : String) (r : ℤ)
    (h : trackerRatingStr s = some r) : 1 ≤ r ∧ r ≤ 10 := by
  rw [trackerRatingStr] at h
  cases hp : pyFloat s with
  | none => simp [hp] at h
  | some q =>
    rw [hp, Option.some_bind] at h
    simp only [trackerRatingNum] at h
    split_ifs at h with hq h1 h2 <;>
      first
      | (cases h; assumption)
      | cases h

/-- Fields of a book built by `trackerBuild`: the status and format come
from the two mapping functions and the rating passes the [1,10] gate. -/
theorem trackerBuild_fields (db : DB) (row : Row) (b : DBBook)
    (authors genres : List String)
    (h : trackerBuild db row = .ok (.book b authors genres)) :
    b.status = .jstr (map_reading_status (rowGetD row "readingStatus" "")
        (rowGetD row "state" "")) ∧
    b.format = .jstr (map_book_format (rowGetD row "types" "")) ∧
    ratingOk b.rating ∧
    (∃ sA, authors = parseNames sA) ∧ (∃ sG, genres = parseNames sG) := by
  simp only [trackerBuild, exc_bind_eq_ok] at h
  obtain ⟨title, -, h⟩ := h
  by_cases ht0 : title = ""
  · rw [if_pos ht0] at h; simp [exc_ok_bind, exc_pure] at h
  · rw [if_neg ht0] at h
    by_cases ht1 : (db.books.any fun bb => bb.title = title) = true
    · rw [if_pos ht1] at h; simp [exc_ok_bind, exc_pure] at h
    · rw [if_neg ht1] at h
      simp only [exc_bind_eq_ok, exc_ok_bind, exc_pure] at h
      obtain ⟨aS, -, h⟩ := h
      obtain ⟨cS, -, h⟩ := h
      obtain ⟨l0, -, h⟩ := h
      obtain ⟨sub, -, h⟩ := h
      obtain ⟨dsc, -, h⟩ := h
      obtain ⟨loc, -, h⟩ := h
      obtain ⟨c1, -, h⟩ := h
      obtain ⟨cov, -, h⟩ := h
      obtain ⟨i1, -, h⟩ := h
      obtain ⟨isb, -, h⟩ := h
      obtain ⟨pg, -, h⟩ := h
      obtain ⟨rs, hrs, h⟩ := h
      obtain ⟨ry1, -, h⟩ := h
      obtain ⟨ry, -, h⟩ := h
      obtain ⟨-, -, h⟩ := h
      obtain ⟨-, -, h⟩ := h
      injection h with h
      injection h with hb hA hG
      subst hb
      refine ⟨rfl, rfl, ?_, ⟨aS, hA.symm⟩, ⟨cS, hG.symm⟩⟩
      show ratingOk (if rs ≠ "" then _ else JValue.jnull)
      split_ifs with hne
      · cases hm : trackerRatingStr rs with
        | none => simp [hm, ratingOk]
        | some r =>
          simp only [hm, ratingOk]
          exact trackerRatingStr_bounds rs r hm
      · trivial

/-- Fields of a book built by `csvBuild`: the rating passes the [1,10]
gate, and status/format are the stripped source cell with the default only
replacing an empty value. -/
theorem csvBuild_fields (row : Row) (b : DBBook)
    (authors genres : List String)
    (h : csvBuild row = .ok (some (b, authors, genres))) :
    ratingOk b.rating ∧
    (∃ s, getStrip row "status" "planned" = .ok s ∧
      b.status = .jstr (pyOrStr s "planned")) ∧
    (∃ f, getStrip row "format" "paper" = .ok f ∧
      b.format = .jstr (pyOrStr f "paper")) ∧
    (∃ sA, authors = parseNames sA) ∧ (∃ sG, genres = parseNames sG) := by
  simp only [csvBuild, exc_bind_eq_ok, exc_pure] at h
  obtain ⟨title, -, h⟩ := h
  by_cases ht0 : title = ""
  · rw [if_pos ht0] at h; simp [exc_ok_bind, exc_pure] at h
  · rw [if_neg ht0] at h
    simp only [exc_bind_eq_ok, exc_ok_bind, exc_pure] at h
    obtain ⟨aS, -, h⟩ := h
    obtain ⟨gS, -, h⟩ := h
    obtain ⟨sub, -, h⟩ := h
    obtain ⟨dsc, -, h⟩ := h
    obtain ⟨lang, -, h⟩ := h
    obtain ⟨fmt, hfmt, h⟩ := h
    obtain ⟨st, hst, h⟩ := h
    obtain ⟨loc, -, h⟩ := h
    obtain ⟨nts, -, h⟩ := h
    injection h with h
    injection h with h
    injection h with hb h
    injection h with hA hG
    subst hb
    refine ⟨?_, ⟨st, hst, rfl⟩, ⟨fmt, hfmt, rfl⟩, ⟨aS, hA.symm⟩,
      ⟨gS, hG.symm⟩⟩
    show ratingOk (match rowGetN row "rating" with
      | some s => _ | none => JValue.jnull)
    cases hr : rowGetN row "rating" with
    | none => trivial
    | some s =>
      simp only []
      split_ifs with hne
      · cases hp : pyInt s with
        | none => trivial
        | some r =>
          simp only []
          split_ifs with hb
          · exact hb
          · trivial
      · trivial

theorem foldl_goc_author_books (names : List String) :
    ∀ db : DB, (names.foldl get_or_create_author db).books = db.books := by
  induction names with
  | nil => intro db; rfl
  | cons n rest ih =>
    intro db
    rw [List.foldl_cons, ih, goc_author_books]

theorem foldl_goc_genre_books (names : List String) :
    ∀ db : DB, (names.foldl get_or_create_genre db).books = db.books := by
  induction names with
  | nil => intro db; rfl
  | cons n rest ih =>
    intro db
    rw [List.foldl_cons, ih, goc_genre_books]

theorem foldl_goc_author_genres (names : List String) :
    ∀ db : DB, (names.foldl get_or_create_author db).genres = db.genres := by
  induction names with
  | nil => intro db; rfl
  | cons n rest ih =>
    intro db
    rw [List.foldl_cons, ih, goc_author_genres]

theorem foldl_goc_genre_authors (names : List String) :
    ∀ db : DB, (names.foldl get_or_create_genre db).authors = db.authors := by
  induction names with
  | nil => intro db; rfl
  | cons n rest ih =>
    intro db
    rw [List.foldl_cons, ih, goc_genre_authors]

/-- Every book in the session after one tracker iteration is either
pre-existing or has mapped status/format and a gated rating. -/
theorem trackerStep_books (db : DB) (row : Row) (n : Nat) :
    ∀ b ∈ (trackerStep db row n).2.books, b ∈ db.books ∨
      (statusOk b.status ∧ formatOk b.format ∧ ratingOk b.rating) := by
  intro b hb
  simp only [trackerStep] at hb
  cases htb : trackerBuild db row with
  | error e => rw [htb] at hb; exact .inl hb
  | ok res =>
    rw [htb] at hb
    cases res with
    | emptyTitle => exact .inl hb
    | dup t => exact .inl hb
    | book bk authors genres =>
      simp only [List.mem_append] at hb
      rw [trackerGenreLoop_books, trackerAuthorLoop_books] at hb
      rcases hb with hb | hb
      · exact .inl hb
      · have hf := trackerBuild_fields db row bk authors genres htb
        rw [List.mem_singleton] at hb
        subst hb
        exact .inr ⟨⟨_, hf.1, map_reading_status_mem _ _⟩,
          ⟨_, hf.2.1, map_book_format_mem _⟩, hf.2.2.1⟩

/-- Every book in the session after one generic-CSV iteration is either
pre-existing or has a gated rating. -/
theorem csvStep_books (db : DB) (row : Row) (n : Nat) :
    ∀ b ∈ (csvStep db row n).2.books, b ∈ db.books ∨ ratingOk b.rating := by
  intro b hb
  simp only [csvStep] at hb
  cases hcb : csvBuild row with
  | error e => rw [hcb] at hb; exact .inl hb
  | ok res =>
    rw [hcb] at hb
    cases res with
    | none => exact .inl hb
    | some trip =>
      simp only [List.mem_append] at hb
      rw [foldl_goc_genre_books, foldl_goc_author_books] at hb
      rcases hb with hb | hb
      · exact .inl hb
      · have hf := csvBuild_fields row trip.1 trip.2.1 trip.2.2 (by rw [hcb])
        rw [List.mem_singleton] at hb
        subst hb
        exact .inr hf.1

/-- Every book in the session after one JSON iteration is either
pre-existing or carries the raw `rating`/`status`/`format` values of its
source record (defaults only for absent keys). -/
theorem jsonStep_books (db : DB) (fields : List (String × JValue)) (i : Nat) :
    ∀ b ∈ (jsonStep db (.jobj fields) i).2.books,
      b ∈ db.books ∨
        (b.rating = jgetD fields "rating" .jnull ∧
         b.status = jgetD fields "status" (.jstr "planned") ∧
         b.format = jgetD fields "format" (.jstr "paper")) := by
  intro b hb
  simp only [jsonStep] at hb
  cases hs : jStripField (jgetD fields "title" (.jstr "")) with
  | error e => simp only [hs] at hb; exact .inl hb
  | ok title =>
    simp only [hs] at hb
    by_cases ht : title = ""
    · rw [if_pos ht] at hb; exact .inl hb
    · rw [if_neg ht] at hb
      cases hit : jsonIterable (wrapStr (jgetD fields "authors" (.jlist [])))
        with
      | error e => simp only [hit] at hb; exact .inl hb
      | ok aItems =>
        simp only [hit] at hb
        have hab := jsonResolveAuthors_books aItems db []
        cases hra : jsonResolveAuthors db [] aItems with
        | error p =>
          obtain ⟨e, dbp⟩ := p
          simp only [hra] at hb
          rw [hra] at hab
          rw [show (resDB (Except.error (e, dbp))) = dbp from rfl] at hab
          rw [hab] at hb
          exact .inl hb
        | ok pr =>
          obtain ⟨db1, aNames⟩ := pr
          simp only [hra] at hb
          rw [hra] at hab
          rw [show (resDB (Except.ok (db1, aNames))) = db1 from rfl] at hab
          cases hgit : jsonIterable (wrapStr (jgetD fields "genres"
              (.jlist []))) with
          | error e =>
            simp only [hgit] at hb
            rw [hab] at hb
            exact .inl hb
          | ok gItems =>
            simp only [hgit] at hb
            have hgb := jsonResolveGenres_books gItems db1 []
            cases hrg : jsonResolveGenres db1 [] gItems with
            | error p2 =>
              obtain ⟨e2, dbp2⟩ := p2
              simp only [hrg] at hb
              rw [hrg] at hgb
              rw [show (resDB (Except.error (e2, dbp2))) = dbp2 from rfl]
                at hgb
              rw [hgb, hab] at hb
              exact .inl hb
            | ok pr2 =>
              obtain ⟨db2, gNames⟩ := pr2
              simp only [hrg] at hb
              rw [hrg] at hgb
              rw [show (resDB (Except.ok (db2, gNames))) = db2 from rfl]
                at hgb
              simp only [List.mem_append] at hb
              rw [hgb, hab] at hb
              rcases hb with hb | hb
              · exact .inl hb
              · rw [List.mem_singleton] at hb
                subst hb
                exact .inr ⟨rfl, rfl, rfl⟩

/-! ### C8 — rating bounds of persisted books -/

/-- C8 counterexample: the JSON importer persists `rating` verbatim; the
record `[{"title": "A", "rating": 99}]` imports successfully and stores a
book whose rating is 99, outside [1, 10]. -/
theorem c8_counterexample :
    import_from_json
        (some (.jlist [.jobj [("title", .jstr "A"), ("rating", .jint 99)]]))
        {} =
      .ok ({ success := 1 },
        { books := [{ title := "A", rating := .jint 99 }] }) ∧
    ¬ ratingOk (JValue.jint 99) := by
  refine ⟨rfl, ?_⟩
  intro h
  exact absurd (show (99 : ℤ) ≤ 10 from h.2) (by decide)

/-- C8 amended: books persisted by the tracker-CSV and generic-CSV paths
have their rating gated into [1, 10] (or left unset); the JSON path stores
the source record's `rating` value without validation. -/
theorem c8_amended :
    (∀ (rows : List Row) (db : DB),
      ∀ b ∈ (import_from_booktracker rows db).2.books,
        b ∈ db.books ∨ ratingOk b.rating) ∧
    (∀ (rows : List Row) (db : DB),
      ∀ b ∈ (import_from_csv rows db).2.books,
        b ∈ db.books ∨ ratingOk b.rating) ∧
    (∀ (db : DB) (fields : List (String × JValue)) (i : Nat),
      ∀ b ∈ (jsonStep db (.jobj fields) i).2.books,
        b ∈ db.books ∨ b.rating = jgetD fields "rating" .jnull) := by
  refine ⟨?_, ?_, ?_⟩
  · intro rows db
    exact runImport_pres trackerStep
      (fun d => ∀ b ∈ d.books, b ∈ db.books ∨ ratingOk b.rating)
      (fun d x n hQ b hb => by
        rcases trackerStep_books d x n b hb with h1 | h1
        · exact hQ b h1
        · exact .inr h1.2.2)
      rows db 2 {} (fun b hb => .inl hb)
  · intro rows db
    exact runImport_pres csvStep
      (fun d => ∀ b ∈ d.books, b ∈ db.books ∨ ratingOk b.rating)
      (fun d x n hQ b hb => by
        rcases csvStep_books d x n b hb with h1 | h1
        · exact hQ b h1
        · exact .inr h1)
      rows db 2 {} (fun b hb => .inl hb)
  · intro db fields i b hb
    rcases jsonStep_books db fields i b hb with h1 | h1
    · exact .inl h1
    · exact .inr h1.1

/-- C8 amended witness at concrete inputs. -/
theorem c8_amended_witness :
    (({ title := "B" } : DBBook) ∈ ({ books := [{ title := "B" }] } : DB).books
      ∨ ratingOk ({ title := "B" } : DBBook).rating) ∧
    (({ title := "T" } : DBBook) ∈ ({} : DB).books ∨
      ({ title := "T" } : DBBook).rating =
        jgetD [("title", .jstr "T")] "rating" .jnull) := by
  have hm : ({ title := "T" } : DBBook) ∈
      (jsonStep {} (.jobj [("title", .jstr "T")]) 0).2.books := by
    rw [show (jsonStep ({} : DB) (.jobj [("title", .jstr "T")]) 0).2.books =
      [{ title := "T" }] from rfl]
    exact List.mem_singleton.mpr rfl
  have hm2 : ({ title := "B" } : DBBook) ∈
      (import_from_csv [] { books := [{ title := "B" }] }).2.books := by
    rw [show (import_from_csv []
      { books := [{ title := "B" }] }).2.books =
      [{ title := "B" }] from rfl]
    exact List.mem_singleton.mpr rfl
  exact ⟨c8_amended.2.1 [] { books := [{ title := "B" }] } _ hm2,
    c8_amended.2.2 {} [("title", .jstr "T")] 0 _ hm⟩

/-! ### C3 — status/format enumeration of persisted books -/

/-- C3 counterexample: the generic CSV importer stores unrecognized
`status`/`format` strings verbatim; importing a row with status `banana`
and format `scroll` persists those raw strings, which are outside the
closed enumerations. -/
theorem c3_counterexample :
    (import_from_csv [[("title", some "A"), ("status", some "banana"),
        ("format", some "scroll")]] {}).2.books.map
        (fun b => (b.status, b.format)) =
      [(.jstr "banana", .jstr "scroll")] ∧
    "banana" ∉ statusLits ∧ "scroll" ∉ formatLits := by
  exact ⟨rfl, by decide, by decide⟩

/-- C3 amended: the tracker-CSV path maps every source status/format into
the closed enumerations, with unrecognized values going to the defaults
`planned`/`paper`; the generic CSV path stores the stripped source cell
and applies the default only to a missing or empty cell; the JSON path
stores the raw source value and applies the default only to a missing
key. -/
theorem c3_amended :
    (∀ (rows : List Row) (db : DB),
      ∀ b ∈ (import_from_booktracker rows db).2.books,
        b ∈ db.books ∨ (statusOk b.status ∧ formatOk b.format)) ∧
    (∀ s st, pyLower (s.getD "") ∉
        (["read", "reading", "want_to_read", "on_hold", "dropped"] :
          List String) →
      map_reading_status s st = "planned") ∧
    (∀ ty, strContains (pyLower (ty.getD "")) "audiobook" = false →
      strContains (pyLower (ty.getD "")) "ebook" = false →
      strContains (pyLower (ty.getD "")) "e-book" = false →
      strContains (pyLower (ty.getD "")) "hardcover" = false →
      strContains (pyLower (ty.getD "")) "paperback" = false →
      map_book_format ty = "paper") ∧
    (∀ (row : Row) (b : DBBook) (authors genres : List String),
      csvBuild row = .ok (some (b, authors, genres)) →
      (∃ s, getStrip row "status" "planned" = .ok s ∧
        b.status = .jstr (pyOrStr s "planned")) ∧
      (∃ f, getStrip row "format" "paper" = .ok f ∧
        b.format = .jstr (pyOrStr f "paper"))) ∧
    (∀ (db : DB) (fields : List (String × JValue)) (i : Nat),
      ∀ b ∈ (jsonStep db (.jobj fields) i).2.books,
        b ∈ db.books ∨
          (b.status = jgetD fields "status" (.jstr "planned") ∧
           b.format = jgetD fields "format" (.jstr "paper"))) := by
  refine ⟨?_, map_reading_status_default, map_book_format_default, ?_, ?_⟩
  · intro rows db
    exact runImport_pres trackerStep
      (fun d => ∀ b ∈ d.books,
        b ∈ db.books ∨ (statusOk b.status ∧ formatOk b.format))
      (fun d x n hQ b hb => by
        rcases trackerStep_books d x n b hb with h1 | h1
        · exact hQ b h1
        · exact .inr ⟨h1.1, h1.2.1⟩)
      rows db 2 {} (fun b hb => .inl hb)
  · intro row b authors genres h
    have hf := csvBuild_fields row b authors genres h
    exact ⟨hf.2.1, hf.2.2.1⟩
  · intro db fields i b hb
    rcases jsonStep_books db fields i b hb with h1 | h1
    · exact .inl h1
    · exact .inr ⟨h1.2.1, h1.2.2⟩

/-- C3 amended witness at concrete inputs. -/
theorem c3_amended_witness :
    map_reading_status (some "banana") none = "planned" ∧
    map_book_format (some "scroll") = "paper" ∧
    ((∃ s, getStrip [("title", some "A")] "status" "planned" = .ok s ∧
        ({ title := "A" } : DBBook).status = .jstr (pyOrStr s "planned")) ∧
      (∃ f, getStrip [("title", some "A")] "format" "paper" = .ok f ∧
        ({ title := "A" } : DBBook).format = .jstr (pyOrStr f "paper"))) :=
  ⟨c3_amended.2.1 (some "banana") none (by decide),
   c3_amended.2.2.1 (some "scroll") rfl rfl rfl rfl rfl,
   c3_amended.2.2.2.1 [("title", some "A")] { title := "A" } [] [] rfl⟩

/-! ### Strip idempotence and entity-table health -/

theorem pyStrip_eq_rdrop (l : List Char) :
    pyStrip l = List.rdropWhile isPySpace (List.dropWhile isPySpace l) := rfl

theorem dropWhile_rdropWhile (p : Char → Bool) (x : List Char)
    (hx : List.dropWhile p x = x) :
    List.dropWhile p (List.rdropWhile p x) = List.rdropWhile p x := by
  cases x with
  | nil => simp [List.rdropWhile]
  | cons a t =>
    have hpa : p a = false := by
      by_contra hp
      rw [Bool.not_eq_false] at hp
      rw [List.dropWhile_cons_of_pos hp] at hx
      have hlen := congrArg List.length hx
      have h2 : (List.dropWhile p t).length ≤ t.length :=
        (List.dropWhile_suffix p).sublist.length_le
      simp only [List.length_cons] at hlen
      omega
    obtain ⟨u, hu⟩ := List.rdropWhile_prefix p (a :: t)
    cases hr : List.rdropWhile p (a :: t) with
    | nil => rfl
    | cons c t' =>
      rw [hr, List.cons_append] at hu
      injection hu with h1 h2
      subst h1
      exact List.dropWhile_cons_of_neg (by simp [hpa])

theorem pyStrip_idem (l : List Char) : pyStrip (pyStrip l) = pyStrip l := by
  rw [pyStrip_eq_rdrop, pyStrip_eq_rdrop]
  rw [dropWhile_rdropWhile isPySpace _ (List.dropWhile_idempotent _ _)]
  rw [List.rdropWhile_idempotent]

theorem strStrip_data (s : String) : (strStrip s).data = pyStrip s.data := rfl

theorem strStrip_stripped (s : String) :
    pyStrip (strStrip s).data = (strStrip s).data := by
  rw [strStrip_data, pyStrip_idem]

theorem parseNames_stripped (s : String) :
    ∀ t ∈ parseNames s, pyStrip t.data = t.data := by
  intro t ht
  simp only [parseNames, List.mem_filterMap] at ht
  obtain ⟨cs, -, ht⟩ := ht
  by_cases h : pyStrip cs = []
  · rw [if_pos h] at ht; cases ht
  · rw [if_neg h] at ht
    cases ht
    exact pyStrip_idem cs

theorem goc_author_tables (db : DB) (n : String) (hok : tablesOk db)
    (hn : pyStrip n.data = n.data) : tablesOk (get_or_create_author db n) := by
  by_cases h : n ∈ db.authors
  · simpa [get_or_create_author, h] using hok
  · refine ⟨⟨?_, ?_⟩, ?_⟩
    · simp only [get_or_create_author, if_neg h]
      simp [List.nodup_append, hok.1.1, h]
    · intro m hm
      simp only [get_or_create_author, if_neg h, List.mem_append,
        List.mem_singleton] at hm
      rcases hm with hm | hm
      · exact hok.1.2 m hm
      · subst hm; exact hn
    · simpa [get_or_create_author, h] using hok.2

theorem goc_genre_tables (db : DB) (n : String) (hok : tablesOk db)
    (hn : pyStrip n.data = n.data) : tablesOk (get_or_create_genre db n) := by
  by_cases h : n ∈ db.genres
  · simpa [get_or_create_genre, h] using hok
  · refine ⟨?_, ⟨?_, ?_⟩⟩
    · simpa [get_or_create_genre, h] using hok.1
    · simp only [get_or_create_genre, if_neg h]
      simp [List.nodup_append, hok.2.1, h]
    · intro m hm
      simp only [get_or_create_genre, if_neg h, List.mem_append,
        List.mem_singleton] at hm
      rcases hm with hm | hm
      · exact hok.2.2 m hm
      · subst hm; exact hn

theorem trackerAuthorLoop_tables :
    ∀ (names : List String) (db : DB) (seen att : List String),
      (∀ n ∈ names, pyStrip n.data = n.data) → tablesOk db →
      tablesOk (trackerAuthorLoop db seen att names).1 := by
  intro names
  induction names with
  | nil => intro db seen att _ hok; exact hok
  | cons n rest ih =>
    intro db seen att hn hok
    simp only [trackerAuthorLoop]
    split
    · exact ih _ _ _ (fun m hm => hn m (List.mem_cons_of_mem n hm))
        (goc_author_tables db n hok (hn n (List.mem_cons_self n rest)))
    · exact ih _ _ _ (fun m hm => hn m (List.mem_cons_of_mem n hm)) hok

theorem trackerGenreLoop_tables :
    ∀ (names : List String) (db : DB) (seen att : List String),
      (∀ n ∈ names, pyStrip n.data = n.data) → tablesOk db →
      tablesOk (trackerGenreLoop db seen att names).1 := by
  intro names
  induction names with
  | nil => intro db seen att _ hok; exact hok
  | cons n rest ih =>
    intro db seen att hn hok
    simp only [trackerGenreLoop]
    split
    · exact ih _ _ _ (fun m hm => hn m (List.mem_cons_of_mem n hm))
        (goc_genre_tables db n hok (hn n (List.mem_cons_self n rest)))
    · exact ih _ _ _ (fun m hm => hn m (List.mem_cons_of_mem n hm)) hok

theorem foldl_goc_author_tables :
    ∀ (names : List String) (db : DB),
      (∀ n ∈ names, pyStrip n.data = n.data) → tablesOk db →
      tablesOk (names.foldl get_or_create_author db) := by
  intro names
  induction names with
  | nil => intro db _ hok; exact hok
  | cons n rest ih =>
    intro db hn hok
    rw [List.foldl_cons]
    exact ih _ (fun m hm => hn m (List.mem_cons_of_mem n hm))
      (goc_author_tables db n hok (hn n (List.mem_cons_self n rest)))

theorem foldl_goc_genre_tables :
    ∀ (names : List String) (db : DB),
      (∀ n ∈ names, pyStrip n.data = n.data) → tablesOk db →
      tablesOk (names.foldl get_or_create_genre db) := by
  intro names
  induction names with
  | nil => intro db _ hok; exact hok
  | cons n rest ih =>
    intro db hn hok
    rw [List.foldl_cons]
    exact ih _ (fun m hm => hn m (List.mem_cons_of_mem n hm))
      (goc_genre_tables db n hok (hn n (List.mem_cons_self n rest)))

theorem jsonResolveAuthors_tables :
    ∀ (items : List JValue) (db : DB) (acc : List String),
      tablesOk db → tablesOk (resDB (jsonResolveAuthors db acc items)) := by
  intro items
  induction items with
  | nil => intro db acc hok; exact hok
  | cons v vs ih =>
    intro db acc hok
    simp only [jsonResolveAuthors]
    split
    · split
      · exact ih _ _ (goc_author_tables db _ hok (strStrip_stripped _))
      · exact hok
    · exact ih _ _ hok

theorem jsonResolveGenres_tables :
    ∀ (items : List JValue) (db : DB) (acc : List String),
      tablesOk db → tablesOk (resDB (jsonResolveGenres db acc items)) := by
  intro items
  induction items with
  | nil => intro db acc hok; exact hok
  | cons v vs ih =>
    intro db acc hok
    simp only [jsonResolveGenres]
    split
    · split
      · exact ih _ _ (goc_genre_tables db _ hok (strStrip_stripped _))
      · exact hok
    · exact ih _ _ hok

theorem trackerStep_tables (db : DB) (row : Row) (n : Nat)
    (hok : tablesOk db) : tablesOk (trackerStep db row n).2 := by
  simp only [trackerStep]
  cases htb : trackerBuild db row with
  | error e => exact hok
  | ok res =>
    cases res with
    | emptyTitle => exact hok
    | dup t => exact hok
    | book bk authors genres =>
      have hf := trackerBuild_fields db row bk authors genres htb
      obtain ⟨sA, hsA⟩ := hf.2.2.2.1
      obtain ⟨sG, hsG⟩ := hf.2.2.2.2
      have h1 := trackerAuthorLoop_tables authors db [] []
        (by rw [hsA]; exact parseNames_stripped sA) hok
      have h2 := trackerGenreLoop_tables genres _ [] []
        (by rw [hsG]; exact parseNames_stripped sG) h1
      exact h2

theorem csvStep_tables (db : DB) (row : Row) (n : Nat)
    (hok : tablesOk db) : tablesOk (csvStep db row n).2 := by
  simp only [csvStep]
  cases hcb : csvBuild row with
  | error e => exact hok
  | ok res =>
    cases res with
    | none => exact hok
    | some trip =>
      have hf := csvBuild_fields row trip.1 trip.2.1 trip.2.2 (by rw [hcb])
      obtain ⟨sA, hsA⟩ := hf.2.2.2.1
      obtain ⟨sG, hsG⟩ := hf.2.2.2.2
      have h1 := foldl_goc_author_tables trip.2.1 db
        (by rw [hsA]; exact parseNames_stripped sA) hok
      have h2 := foldl_goc_genre_tables trip.2.2 _
        (by rw [hsG]; exact parseNames_stripped sG) h1
      exact h2

theorem jsonStep_tables (db : DB) (v : JValue) (i : Nat)
    (hok : tablesOk db) : tablesOk (jsonStep db v i).2 := by
  cases v with
  | jnull => exact hok
  | jstr s => exact hok
  | jint k => exact hok
  | jlist xs => exact hok
  | jobj fields =>
    simp only [jsonStep]
    cases hs : jStripField (jgetD fields "title" (.jstr "")) with
    | error e => simp only [hs]; exact hok
    | ok title =>
      simp only [hs]
      by_cases ht : title = ""
      · rw [if_pos ht]; exact hok
      · rw [if_neg ht]
        cases hit : jsonIterable (wrapStr (jgetD fields "authors"
            (.jlist []))) with
        | error e => simp only [hit]; exact hok
        | ok aItems =>
          simp only [hit]
          have hA := jsonResolveAuthors_tables aItems db [] hok
          cases hra : jsonResolveAuthors db [] aItems with
          | error p =>
            obtain ⟨e, dbp⟩ := p
            simp only [hra]
            rw [hra] at hA
            exact hA
          | ok pr =>
            obtain ⟨db1, aNames⟩ := pr
            simp only [hra]
            rw [hra] at hA
            cases hgit : jsonIterable (wrapStr (jgetD fields "genres"
                (.jlist []))) with
            | error e => simp only [hgit]; exact hA
            | ok gItems =>
              simp only [hgit]
              have hG := jsonResolveGenres_tables gItems db1 [] hA
              cases hrg : jsonResolveGenres db1 [] gItems with
              | error p2 =>
                obtain ⟨e2, dbp2⟩ := p2
                simp only [hrg]
                rw [hrg] at hG
                exact hG
              | ok pr2 =>
                obtain ⟨db2, gNames⟩ := pr2
                simp only [hrg]
                rw [hrg] at hG
                exact hG

/-- A failed JSON record never persists its book and its diagnostic starts
with the 1-based record position; its entity-table writes, however, are
kept (the error carries the partially mutated session). -/
theorem jsonStep_failed (db : DB) (v : JValue) (i : Nat) (m : String)
    (db' : DB) (h : jsonStep db v i = (.failed m, db')) :
    db'.books = db.books ∧
    ∃ s, m = "Книга " ++ toString (i + 1) ++ ": " ++ s := by
  cases v with
  | jnull =>
    simp only [jsonStep] at h
    injection h with hO hD
    injection hO with hm
    exact ⟨hD ▸ rfl, _, hm.symm⟩
  | jstr s =>
    simp only [jsonStep] at h
    injection h with hO hD
    injection hO with hm
    exact ⟨hD ▸ rfl, _, hm.symm⟩
  | jint k =>
    simp only [jsonStep] at h
    injection h with hO hD
    injection hO with hm
    exact ⟨hD ▸ rfl, _, hm.symm⟩
  | jlist xs =>
    simp only [jsonStep] at h
    injection h with hO hD
    injection hO with hm
    exact ⟨hD ▸ rfl, _, hm.symm⟩
  | jobj fields =>
    simp only [jsonStep] at h
    cases hs : jStripField (jgetD fields "title" (.jstr "")) with
    | error e =>
      simp only [hs] at h
      injection h with hO hD
      injection hO with hm
      exact ⟨hD ▸ rfl, _, hm.symm⟩
    | ok title =>
      simp only [hs] at h
      by_cases ht : title = ""
      · rw [if_pos ht] at h
        injection h with hO hD
        injection hO with hm
        exact ⟨hD ▸ rfl, _, hm.symm⟩
      · rw [if_neg ht] at h
        cases hit : jsonIterable (wrapStr (jgetD fields "authors"
            (.jlist []))) with
        | error e =>
          simp only [hit] at h
          injection h with hO hD
          injection hO with hm
          exact ⟨hD ▸ rfl, _, hm.symm⟩
        | ok aItems =>
          simp only [hit] at h
          have hab := jsonResolveAuthors_books aItems db []
          cases hra : jsonResolveAuthors db [] aItems with
          | error p =>
            obtain ⟨e, dbp⟩ := p
            simp only [hra] at h
            rw [hra] at hab
            simp only [resDB] at hab
            injection h with hO hD
            injection hO with hm
            refine ⟨?_, _, hm.symm⟩
            rw [← hD]
            exact hab
          | ok pr =>
            obtain ⟨db1, aNames⟩ := pr
            simp only [hra] at h
            rw [hra] at hab
            simp only [resDB] at hab
            cases hgit : jsonIterable (wrapStr (jgetD fields "genres"
                (.jlist []))) with
            | error e =>
              simp only [hgit] at h
              injection h with hO hD
              injection hO with hm
              refine ⟨?_, _, hm.symm⟩
              rw [← hD]
              exact hab
            | ok gItems =>
              simp only [hgit] at h
              have hgb := jsonResolveGenres_books gItems db1 []
              cases hrg : jsonResolveGenres db1 [] gItems with
              | error p2 =>
                obtain ⟨e2, dbp2⟩ := p2
                simp only [hrg] at h
                rw [hrg] at hgb
                simp only [resDB] at hgb
                injection h with hO hD
                injection hO with hm
                refine ⟨?_, _, hm.symm⟩
                rw [← hD, hgb]
                exact hab
              | ok pr2 =>
                obtain ⟨db2, gNames⟩ := pr2
                simp only [hrg] at h
                injection h with hO hD
                cases hO

/-! ### Split/join round trip for comma-separated name cells -/

theorem strMk_data (s : String) : String.mk s.data = s := rfl

theorem strStrip_eq_self (s : String) (h : pyStrip s.data = s.data) :
    strStrip s = s := by
  simp only [strStrip, h]

theorem str_ne_empty_iff (s : String) : s ≠ "" ↔ s.data ≠ [] := by
  constructor
  · intro h hd
    exact h (by cases s; simp_all)
  · intro h hs
    subst hs
    exact h rfl

theorem splitOnCh_cons (sep c : Char) (cs : List Char) :
    splitOnCh sep (c :: cs) =
      match splitOnCh sep cs with
      | [] => [[]]
      | g :: gs => if c = sep then [] :: g :: gs else (c :: g) :: gs := rfl

theorem splitOnCh_ne_nil (sep : Char) : ∀ l, splitOnCh sep l ≠ [] := by
  intro l
  cases l with
  | nil => simp [splitOnCh]
  | cons c cs =>
    rw [splitOnCh_cons]
    cases splitOnCh sep cs with
    | nil => simp
    | cons g gs => by_cases hc : c = sep <;> simp [hc]

theorem splitOnCh_no_sep (sep : Char) :
    ∀ l, sep ∉ l → splitOnCh sep l = [l] := by
  intro l
  induction l with
  | nil => intro _; rfl
  | cons c cs ih =>
    intro h
    have hc : c ≠ sep := fun hc => h (hc ▸ List.mem_cons_self c cs)
    have hcs : sep ∉ cs := fun hm => h (List.mem_cons_of_mem c hm)
    rw [splitOnCh_cons, ih hcs]
    simp [hc]

theorem splitOnCh_append (sep : Char) :
    ∀ (l₁ l₂ : List Char), sep ∉ l₁ →
      splitOnCh sep (l₁ ++ sep :: l₂) = l₁ :: splitOnCh sep l₂ := by
  intro l₁
  induction l₁ with
  | nil =>
    intro l₂ _
    rw [List.nil_append, splitOnCh_cons]
    cases h : splitOnCh sep l₂ with
    | nil => exact absurd h (splitOnCh_ne_nil sep l₂)
    | cons g gs => simp [← h]
  | cons c cs ih =>
    intro l₂ h
    have hc : c ≠ sep := fun hc => h (hc ▸ List.mem_cons_self c cs)
    have hcs : sep ∉ cs := fun hm => h (List.mem_cons_of_mem c hm)
    rw [List.cons_append, splitOnCh_cons, ih l₂ hcs]
    simp [hc]

theorem pyStrip_cons_space (c : Char) (hc : isPySpace c = true)
    (l : List Char) : pyStrip (c :: l) = pyStrip l := by
  simp only [pyStrip, List.dropWhile_cons_of_pos hc]

/-- The cell-parsing function applied to one comma-separated group. -/
theorem filterMap_strip_cons (d : List Char) (rest : List (List Char))
    (hd : pyStrip d = d) (hne : d ≠ []) :
    (d :: rest).filterMap (fun cs =>
        let u := pyStrip cs
        if u = [] then none else some (String.mk u)) =
      String.mk d :: rest.filterMap (fun cs =>
        let u := pyStrip cs
        if u = [] then none else some (String.mk u)) := by
  simp [List.filterMap_cons, hd, hne]

theorem parseNames_data (s : String) :
    parseNames s = (splitOnCh ',' s.data).filterMap (fun cs =>
      let u := pyStrip cs
      if u = [] then none else some (String.mk u)) := rfl

theorem splitOnCh_cons_of_cons (sep c : Char) (cs g : List Char)
    (gs : List (List Char)) (h : splitOnCh sep cs = g :: gs) :
    splitOnCh sep (c :: cs) =
      if c = sep then [] :: g :: gs else (c :: g) :: gs := by
  rw [splitOnCh_cons, h]

theorem parseNames_mk_space (z : List Char) :
    parseNames (String.mk (' ' :: z)) = parseNames (String.mk z) := by
  rw [parseNames_data, parseNames_data]
  show ((splitOnCh ',' (' ' :: z)).filterMap _) =
    ((splitOnCh ',' z).filterMap _)
  cases hz : splitOnCh ',' z with
  | nil => exact absurd hz (splitOnCh_ne_nil ',' z)
  | cons g gs =>
    rw [splitOnCh_cons_of_cons ',' ' ' z g gs hz,
      if_neg (by decide : ¬(' ' = ','))]
    simp only [List.filterMap_cons]
    rw [pyStrip_cons_space ' ' (by decide) g]

theorem joinCS_ne_empty (names : List String)
    (h : ∀ n ∈ names, n ≠ "") (hne : names ≠ []) : joinCS names ≠ "" := by
  cases names with
  | nil => exact absurd rfl hne
  | cons n rest =>
    cases rest with
    | nil => exact h n (List.mem_cons_self n [])
    | cons m t =>
      rw [str_ne_empty_iff]
      show (n ++ ", " ++ joinCS (m :: t)).data ≠ []
      rw [String.data_append, String.data_append]
      simp

theorem parseNames_joinCS :
    ∀ names : List String, (∀ n ∈ names, csvSafeName n) →
      parseNames (joinCS names) = names := by
  intro names
  induction names with
  | nil => intro _; rfl
  | cons n rest ih =>
    intro h
    have hn := h n (List.mem_cons_self n rest)
    have hnd : n.data ≠ [] := (str_ne_empty_iff n).mp hn.1.1
    cases rest with
    | nil =>
      show parseNames n = [n]
      rw [parseNames_data, splitOnCh_no_sep ',' n.data hn.2,
        filterMap_strip_cons n.data [] hn.1.2 hnd]
      rw [strMk_data]
      rfl
    | cons m t =>
      have hrest : ∀ x ∈ m :: t, csvSafeName x :=
        fun x hx => h x (List.mem_cons_of_mem n hx)
      show parseNames (n ++ ", " ++ joinCS (m :: t)) = n :: m :: t
      have hdata : (n ++ ", " ++ joinCS (m :: t)).data =
          n.data ++ ',' :: ' ' :: (joinCS (m :: t)).data := by
        rw [String.data_append, String.data_append, List.append_assoc]
        rfl
      rw [parseNames_data, hdata, splitOnCh_append ',' n.data _ hn.2,
        filterMap_strip_cons n.data _ hn.1.2 hnd, strMk_data]
      have htail : (splitOnCh ','
          (' ' :: (joinCS (m :: t)).data)).filterMap (fun cs =>
            let u := pyStrip cs
            if u = [] then none else some (String.mk u)) =
          parseNames (joinCS (m :: t)) := by
        have h1 := parseNames_mk_space (joinCS (m :: t)).data
        rw [strMk_data] at h1
        rw [parseNames_data] at h1
        exact h1
      rw [htail, ih hrest]

/-! ### C1 — per-record exception isolation -/

/-- C1 counterexample: a JSON record whose `authors` list holds a string
followed by a number creates the Author entity for the string, then fails
on the number; the record is counted failed, no book is created, but the
author entity persists through the final commit — the catalog is not as if
the record had never been processed. -/
theorem c1_counterexample :
    import_from_json
        (some (.jlist [.jobj [("title", .jstr "T"),
          ("authors", .jlist [.jstr "X", .jint 5])]])) {} =
      .ok ({ failed := 1,
             errors := ["Книга 1: " ++ pyErrMsg (.attrErr "int" "strip")] },
           { authors := ["X"] }) ∧
    ({ authors := ["X"] } : DB).books = [] ∧
    ({ authors := ["X"] } : DB).authors ≠ [] :=
  ⟨rfl, rfl, by decide⟩

/-- C1 amended: on every path an exception while materializing a record is
caught, the record is counted as failed with a diagnostic carrying its
position (file line number on the CSV paths, 1-based record index on the
JSON path), and the loop continues with the next record.  The tracker path
passes the pre-record state on (its per-record rollback; in the embedding
every tracker/CSV failure also precedes the record's first write), while
the JSON path keeps the partially mutated session, so entities created
before the exception persist (the book itself never does). -/
theorem c1_amended :
    (∀ (db : DB) (row : Row) (n : Nat) (e : PyErr),
      trackerBuild db row = .error e →
      trackerStep db row n =
        (.failed ("Строка " ++ toString n ++ ": " ++ pyErrMsg e), db)) ∧
    (∀ (db : DB) (row : Row) (n : Nat) (e : PyErr),
      csvBuild row = .error e →
      csvStep db row n =
        (.failed ("Строка " ++ toString n ++ ": " ++ pyErrMsg e), db)) ∧
    (∀ (db : DB) (v : JValue) (i : Nat) (m : String) (db' : DB),
      jsonStep db v i = (.failed m, db') →
      db'.books = db.books ∧
      ∃ s, m = "Книга " ++ toString (i + 1) ++ ": " ++ s) ∧
    (∀ (step : DB → Row → Nat → Outcome × DB) (x : Row) (xs : List Row)
        (db : DB) (n : Nat) (acc : ImportResult),
      runImport step (x :: xs) db n acc =
        runImport step xs (step db x n).2 (n + 1)
          (applyOutcome acc (step db x n).1)) ∧
    (∀ (acc : ImportResult) (m : String),
      applyOutcome acc (.failed m) =
        { acc with failed := acc.failed + 1, errors := acc.errors ++ [m] }) := by
  refine ⟨?_, ?_, jsonStep_failed, ?_, fun acc m => rfl⟩
  · intro db row n e h
    simp [trackerStep, h]
  · intro db row n e h
    simp [csvStep, h]
  · intro step x xs db n acc
    exact runImport_cons step x xs db n acc

/-- C1 amended witness at concrete raising records. -/
theorem c1_amended_witness :
    trackerStep {} [("title", none)] 2 =
      (.failed ("Строка " ++ toString 2 ++ ": " ++
        pyErrMsg (.attrErr "NoneType" "strip")), {}) ∧
    csvStep {} [("title", none)] 2 =
      (.failed ("Строка " ++ toString 2 ++ ": " ++
        pyErrMsg (.attrErr "NoneType" "strip")), {}) ∧
    (({} : DB).books = ({} : DB).books ∧
      ∃ s, "Книга 1: " ++ pyErrMsg (.attrErr "str" "get") =
        "Книга " ++ toString (0 + 1) ++ ": " ++ s) :=
  ⟨c1_amended.1 {} [("title", none)] 2 (.attrErr "NoneType" "strip") rfl,
   c1_amended.2.1 {} [("title", none)] 2 (.attrErr "NoneType" "strip") rfl,
   c1_amended.2.2.1 {} (.jstr "x") 0
     ("Книга 1: " ++ pyErrMsg (.attrErr "str" "get")) {} rfl⟩

/-! ### C7 — entity deduplication -/

/-- C7 counterexample: the import path resolves author names with an exact
(case-sensitive) lookup, so two rows whose author names differ only by
letter case create two distinct Author entities. -/
theorem c7_counterexample :
    (import_from_csv
        [[("title", some "A"), ("authors", some "Tolkien")],
         [("title", some "B"), ("authors", some "TOLKIEN")]] {}).2.authors =
      ["Tolkien", "TOLKIEN"] ∧
    "Tolkien" ≠ "TOLKIEN" ∧
    foldName "Tolkien" = foldName "TOLKIEN" :=
  ⟨rfl, by decide, rfl⟩

/-- C7 amended: the import paths trim every author/genre name before
resolving it with an exact case-sensitive name lookup.  Starting from
healthy entity tables (trimmed, duplicate-free names), every import
preserves that health, and consequently no two stored entities can differ
only by surrounding whitespace; names differing only by letter case,
however, do create distinct entities. -/
theorem c7_amended :
    (∀ (rows : List Row) (db : DB), tablesOk db →
      tablesOk (import_from_booktracker rows db).2) ∧
    (∀ (rows : List Row) (db : DB), tablesOk db →
      tablesOk (import_from_csv rows db).2) ∧
    (∀ (db : DB) (v : JValue) (i : Nat), tablesOk db →
      tablesOk (jsonStep db v i).2) ∧
    (∀ l : List String, entityTableOk l →
      ∀ x ∈ l, ∀ y ∈ l, pyStrip x.data = pyStrip y.data → x = y) := by
  refine ⟨?_, ?_, jsonStep_tables, ?_⟩
  · intro rows db
    exact runImport_pres trackerStep tablesOk
      (fun d x n h => trackerStep_tables d x n h) rows db 2 {}
  · intro rows db
    exact runImport_pres csvStep tablesOk
      (fun d x n h => csvStep_tables d x n h) rows db 2 {}
  · intro l hok x hx y hy hxy
    have h1 := hok.2 x hx
    have h2 := hok.2 y hy
    apply String.ext
    rw [← h1, ← h2, hxy]

/-- C7 amended witness: the CSV import from the empty catalog preserves
table health, and the whitespace-uniqueness consequence at a concrete
table. -/
theorem c7_amended_witness :
    tablesOk (import_from_csv
      [[("title", some "A"), ("authors", some "Tolkien")]] {}).2 ∧
    "Tolkien" = "Tolkien" := by
  refine ⟨c7_amended.2.1 [[("title", some "A"), ("authors", some "Tolkien")]]
    {} ⟨⟨List.nodup_nil, by simp⟩, ⟨List.nodup_nil, by simp⟩⟩, ?_⟩
  exact c7_amended.2.2.2 ["Tolkien"] ⟨by simp, by
      intro n hn
      rw [List.mem_singleton] at hn
      subst hn
      rfl⟩
    "Tolkien" (by simp) "Tolkien" (by simp) rfl

/-! ### C2 — duplicate-title handling -/

/-- C2 counterexample: the generic CSV importer has no duplicate-title
check — importing a row titled `Дюна` into a catalog that already has that
title counts it as success (not skipped) and creates a second book with
the same title. -/
theorem c2_counterexample :
    (import_from_csv [[("title", some "Дюна")]]
        { books := [{ title := "Дюна" }] }).1.success = 1 ∧
    (import_from_csv [[("title", some "Дюна")]]
        { books := [{ title := "Дюна" }] }).1.skipped = 0 ∧
    (import_from_csv [[("title", some "Дюна")]]
        { books := [{ title := "Дюна" }] }).2.books.map (fun b => b.title) =
      ["Дюна", "Дюна"] :=
  ⟨rfl, rfl, rfl⟩

/-- C2 amended: only the tracker-CSV path checks for an existing title —
there a record whose non-empty title matches an existing catalog title is
counted as skipped (not failed), creates nothing (the session state is
passed on unchanged) and processing continues; the generic CSV and JSON
steps never produce a skipped outcome (they have no duplicate check), so
duplicate-titled records import as ordinary successes there. -/
theorem c2_amended :
    (∀ (db : DB) (row : Row) (n : Nat) (t : String),
      getStrip row "title" "" = .ok t → t ≠ "" →
      (db.books.any fun b => b.title = t) = true →
      trackerStep db row n =
        (.skipped ("Строка " ++ toString n ++ ": книга \x27" ++ t ++
          "\x27 уже существует"), db)) ∧
    (∀ (db : DB) (row : Row) (n : Nat),
      (csvStep db row n).1 = .success ∨
        ∃ m, (csvStep db row n).1 = .failed m) ∧
    (∀ (db : DB) (v : JValue) (i : Nat),
      (jsonStep db v i).1 = .success ∨
        ∃ m, (jsonStep db v i).1 = .failed m) := by
  refine ⟨?_, ?_, ?_⟩
  · intro db row n t hT ht hdup
    have hdup' : ∃ x ∈ db.books, x.title = t := by simpa using hdup
    have hbuild : trackerBuild db row = .ok (.dup t) := by
      simp [trackerBuild, hT, ht, hdup', exc_ok_bind, exc_pure]
    simp [trackerStep, hbuild]
  · intro db row n
    cases hcb : csvBuild row with
    | error e =>
      right
      exact ⟨"Строка " ++ toString n ++ ": " ++ pyErrMsg e,
        by simp [csvStep, hcb]⟩
    | ok o =>
      cases o with
      | none =>
        right
        exact ⟨"Строка " ++ toString n ++ ": пустое название",
          by simp [csvStep, hcb]⟩
      | some trip => left; simp [csvStep, hcb]
  · intro db v i
    cases v with
    | jnull => right; exact ⟨_, rfl⟩
    | jstr s => right; exact ⟨_, rfl⟩
    | jint k => right; exact ⟨_, rfl⟩
    | jlist xs => right; exact ⟨_, rfl⟩
    | jobj fields =>
      simp only [jsonStep]
      cases hs : jStripField (jgetD fields "title" (.jstr "")) with
      | error e => simp only [hs]; right; exact ⟨_, rfl⟩
      | ok title =>
        simp only [hs]
        by_cases ht : title = ""
        · rw [if_pos ht]; right; exact ⟨_, rfl⟩
        · rw [if_neg ht]
          cases hit : jsonIterable (wrapStr (jgetD fields "authors"
              (.jlist []))) with
          | error e => simp only [hit]; right; exact ⟨_, rfl⟩
          | ok aItems =>
            simp only [hit]
            cases hra : jsonResolveAuthors db [] aItems with
            | error p =>
              obtain ⟨e, dbp⟩ := p
              simp only [hra]; right; exact ⟨_, rfl⟩
            | ok pr =>
              obtain ⟨db1, aNames⟩ := pr
              simp only [hra]
              cases hgit : jsonIterable (wrapStr (jgetD fields "genres"
                  (.jlist []))) with
              | error e => simp only [hgit]; right; exact ⟨_, rfl⟩
              | ok gItems =>
                simp only [hgit]
                cases hrg : jsonResolveGenres db1 [] gItems with
                | error p2 =>
                  obtain ⟨e2, dbp2⟩ := p2
                  simp only [hrg]; right; exact ⟨_, rfl⟩
                | ok pr2 =>
                  obtain ⟨db2, gNames⟩ := pr2
                  simp only [hrg]; left; trivial

/-- C2 amended witness: a concrete duplicate-titled tracker row is
skipped, and the other two steps at concrete inputs yield
success/failure outcomes only. -/
theorem c2_amended_witness :
    trackerStep { books := [{ title := "Дюна" }] } [("title", some "Дюна")]
        2 =
      (.skipped ("Строка " ++ toString 2 ++ ": книга \x27" ++ "Дюна" ++
        "\x27 уже существует"), { books := [{ title := "Дюна" }] }) ∧
    ((csvStep {} [("title", some "A")] 2).1 = .success ∨
      ∃ m, (csvStep {} [("title", some "A")] 2).1 = .failed m) ∧
    ((jsonStep {} (.jobj [("title", .jstr "A")]) 0).1 = .success ∨
      ∃ m, (jsonStep {} (.jobj [("title", .jstr "A")]) 0).1 = .failed m) :=
  ⟨c2_amended.1 { books := [{ title := "Дюна" }] } [("title", some "Дюна")]
      2 "Дюна" rfl (by decide) rfl,
   c2_amended.2.1 {} [("title", some "A")] 2,
   c2_amended.2.2 {} (.jobj [("title", .jstr "A")]) 0⟩

/-! ### C10 — JSON authors/genres given as a single string -/

/-- C10: a JSON record whose `authors` or `genres` field is a single
string is not rejected: the string is wrapped into a one-element list and
that single (stripped) author/genre is resolved against the catalog and
attached to the created book. -/
theorem c10_single_string :
    ∀ (db : DB) (i : Nat) (t a g : String),
      strStrip t ≠ "" → a ≠ "" → g ≠ "" →
      ∃ db' b,
        jsonStep db
          (.jobj [("title", .jstr t), ("authors", .jstr a),
                  ("genres", .jstr g)]) i = (.success, db') ∧
        db'.books = db.books ++ [b] ∧
        b.authorNames = [strStrip a] ∧ b.genreNames = [strStrip g] ∧
        strStrip a ∈ db'.authors ∧ strStrip g ∈ db'.genres := by
  intro db i t a g ht ha hg
  have hA : jsonResolveAuthors db [] [.jstr a] =
      .ok (get_or_create_author db (strStrip a), [strStrip a]) := by
    simp [jsonResolveAuthors, jTruthy, ha]
  have hG : jsonResolveGenres (get_or_create_author db (strStrip a)) []
        [.jstr g] =
      .ok (get_or_create_genre (get_or_create_author db (strStrip a))
        (strStrip g), [strStrip g]) := by
    simp [jsonResolveGenres, jTruthy, hg]
  have hstep : jsonStep db
      (.jobj [("title", .jstr t), ("authors", .jstr a),
              ("genres", .jstr g)]) i =
      (.success,
        { get_or_create_genre (get_or_create_author db (strStrip a))
            (strStrip g) with
          books := (get_or_create_genre (get_or_create_author db (strStrip a))
            (strStrip g)).books ++
            [{ title := strStrip t
               authorNames := [strStrip a]
               genreNames := [strStrip g] }] }) := by
    simp [jsonStep, jgetD, jlookup, jStripField, wrapStr, ht, jsonIterable,
      hA, hG]
  refine ⟨_, { title := strStrip t
               authorNames := [strStrip a]
               genreNames := [strStrip g] }, hstep, ?_, rfl, rfl, ?_, ?_⟩
  · simp [goc_genre_books, goc_author_books]
  · simp [goc_genre_authors, goc_author_mem]
  · simp [goc_genre_mem]

/-- C10 witness at a concrete record. -/
theorem c10_single_string_witness :
    ∃ db' b,
      jsonStep {}
        (.jobj [("title", .jstr "Дюна"), ("authors", .jstr "Герберт"),
                ("genres", .jstr "Фантастика")]) 0 = (.success, db') ∧
      db'.books = ({} : DB).books ++ [b] ∧
      b.authorNames = [strStrip "Герберт"] ∧
      b.genreNames = [strStrip "Фантастика"] ∧
      strStrip "Герберт" ∈ db'.authors ∧
      strStrip "Фантастика" ∈ db'.genres :=
  c10_single_string {} 0 "Дюна" "Герберт" "Фантастика"
    (by decide) (by decide) (by decide)

/-! ### C4 — export/import round trip -/

theorem parseNames_orJoin (names : List String)
    (h : ∀ n ∈ names, csvSafeName n) :
    parseNames (pyOrStr (joinCS names) "") = names := by
  cases names with
  | nil => rfl
  | cons n rest =>
    have hne : joinCS (n :: rest) ≠ "" :=
      joinCS_ne_empty _ (fun x hx => (h x hx).1.1) (by simp)
    show parseNames (if joinCS (n :: rest) = "" then "" else _) = _
    rw [if_neg hne]
    exact parseNames_joinCS _ h

/-- A stored rating that satisfies the data-model invariant survives the
CSV `rating` cell (blank for `None`, `str(r)` re-parsed by `int`). -/
theorem ratingCellRound (v : JValue)
    (hv : v = JValue.jnull ∨ ∃ r, v = JValue.jint r ∧ 1 ≤ r ∧ r ≤ 10) :
    (if jOrBlank v ≠ "" then
       match pyInt (jOrBlank v) with
       | some r => if 1 ≤ r ∧ r ≤ 10 then JValue.jint r else JValue.jnull
       | none => JValue.jnull
     else JValue.jnull) = v := by
  rcases hv with h0 | ⟨r, hr, h1, h10⟩
  · subst h0; rfl
  · subst hr
    have hr0 : r ≠ 0 := by omega
    have hj : jOrBlank (JValue.jint r) = toString r := by
      simp [jOrBlank, jTruthy, cellStr, hr0]
    rw [hj]
    interval_cases r <;> rfl

/-- Evaluating `csvBuild` on an exported row of a hygienic book: the build
succeeds and reproduces the title, status, rating and name lists. -/
theorem csvBuild_export (b : DBBook) (hb : csvHygBook b) :
    ∃ bk, csvBuild (export_to_csv_row b) =
        .ok (some (bk, b.authorNames, b.genreNames)) ∧
      bk.title = b.title ∧ bk.status = b.status ∧ bk.rating = b.rating := by
  obtain ⟨hTt, hAsafe, hGsafe, ⟨s, hs, hsT⟩, hrat⟩ := hb
  have hT : getStrip (export_to_csv_row b) "title" "" = .ok b.title := by
    show Except.ok (strStrip b.title) = _
    rw [strStrip_eq_self b.title hTt.2]
  have hAc : splitCell (pyOrS (rowGetD (export_to_csv_row b) "authors" "")
        (rowGetD (export_to_csv_row b) "author" "")) =
      Except.ok (pyOrStr (joinCS b.authorNames) "") := by
    show splitCell (pyOrS (some (joinCS b.authorNames)) (some "")) = _
    by_cases hx : joinCS b.authorNames = "" <;>
      simp [pyOrS, splitCell, pyOrStr, hx]
  have hGc : splitCell (pyOrS (rowGetD (export_to_csv_row b) "genres" "")
        (rowGetD (export_to_csv_row b) "genre" "")) =
      Except.ok (pyOrStr (joinCS b.genreNames) "") := by
    show splitCell (pyOrS (some (joinCS b.genreNames)) (some "")) = _
    by_cases hx : joinCS b.genreNames = "" <;>
      simp [pyOrS, splitCell, pyOrStr, hx]
  have hSub : getStrip (export_to_csv_row b) "subtitle" "" =
      Except.ok (strStrip (jOrBlank b.subtitle)) := rfl
  have hDesc : getStrip (export_to_csv_row b) "description" "" =
      Except.ok "" := rfl
  have hLang : getStrip (export_to_csv_row b) "language" "ru" =
      Except.ok (strStrip (cellStr b.language)) := rfl
  have hFmt : getStrip (export_to_csv_row b) "format" "paper" =
      Except.ok (strStrip (cellStr b.format)) := rfl
  have hLoc : getStrip (export_to_csv_row b) "location" "" =
      Except.ok (strStrip (jOrBlank b.location)) := rfl
  have hNotes : getStrip (export_to_csv_row b) "notes" "" =
      Except.ok (strStrip (jOrBlank b.notes)) := rfl
  have hSt : getStrip (export_to_csv_row b) "status" "planned" =
      Except.ok s := by
    show Except.ok (strStrip (cellStr b.status)) = _
    rw [hs]
    show Except.ok (strStrip s) = _
    rw [strStrip_eq_self s hsT.2]
  simp only [csvBuild, hT, hAc, hGc, hSub, hDesc, hLang, hFmt, hSt, hLoc,
    hNotes, exc_ok_bind, exc_pure, if_neg hTt.1,
    parseNames_orJoin b.authorNames hAsafe, parseNames_orJoin b.genreNames
    hGsafe]
  refine ⟨_, rfl, rfl, ?_, ?_⟩
  · show JValue.jstr (pyOrStr s "planned") = b.status
    rw [hs]
    simp [pyOrStr, hsT.1]
  · exact ratingCellRound b.rating hrat

/-- One generic-CSV iteration on an exported row of a hygienic book
appends exactly one book reproducing the round-trip fields. -/
theorem csvStep_export (db : DB) (b : DBBook) (n : Nat)
    (hb : csvHygBook b) :
    ∃ bk, (csvStep db (export_to_csv_row b) n).2.books = db.books ++ [bk] ∧
      claimFields bk = claimFields b := by
  obtain ⟨bk, heq, ht, hst, hr⟩ := csvBuild_export b hb
  refine ⟨{ bk with authorNames := b.authorNames, genreNames := b.genreNames }, ?_, ?_⟩
  · simp only [csvStep, heq]
    rw [foldl_goc_genre_books, foldl_goc_author_books]
  · simp only [claimFields, ht, hst, hr]

theorem csvRound_run (bs : List DBBook) (h : ∀ b ∈ bs, csvHygBook b) :
    ∀ (db : DB) (n : Nat) (acc : ImportResult),
      ((runImport csvStep (bs.map export_to_csv_row) db n acc).2.books).map
          claimFields =
        db.books.map claimFields ++ bs.map claimFields := by
  induction bs with
  | nil => intro db n acc; simp [runImport]
  | cons b rest ih =>
    intro db n acc
    obtain ⟨bk, hbooks, hcf⟩ :=
      csvStep_export db b n (h b (List.mem_cons_self b rest))
    rw [List.map_cons, runImport_cons,
      ih (fun x hx => h x (List.mem_cons_of_mem b hx)), hbooks]
    simp [hcf]

theorem jsonResolveAuthors_strs (names : List String)
    (h : ∀ n ∈ names, trimmedNE n) :
    ∀ (db : DB) (acc : List String),
      jsonResolveAuthors db acc (names.map JValue.jstr) =
        .ok (names.foldl get_or_create_author db, acc ++ names) := by
  induction names with
  | nil => intro db acc; simp [jsonResolveAuthors]
  | cons n rest ih =>
    intro db acc
    have hn := h n (List.mem_cons_self n rest)
    have hrest : ∀ x ∈ rest, trimmedNE x :=
      fun x hx => h x (List.mem_cons_of_mem n hx)
    have hstep : jsonResolveAuthors db acc
        (JValue.jstr n :: rest.map JValue.jstr) =
        jsonResolveAuthors (get_or_create_author db (strStrip n))
          (acc ++ [strStrip n]) (rest.map JValue.jstr) := by
      simp [jsonResolveAuthors, jTruthy, hn.1]
    rw [List.map_cons, hstep, strStrip_eq_self n hn.2, ih hrest]
    simp

theorem jsonResolveGenres_strs (names : List String)
    (h : ∀ n ∈ names, trimmedNE n) :
    ∀ (db : DB) (acc : List String),
      jsonResolveGenres db acc (names.map JValue.jstr) =
        .ok (names.foldl get_or_create_genre db, acc ++ names) := by
  induction names with
  | nil => intro db acc; simp [jsonResolveGenres]
  | cons n rest ih =>
    intro db acc
    have hn := h n (List.mem_cons_self n rest)
    have hrest : ∀ x ∈ rest, trimmedNE x :=
      fun x hx => h x (List.mem_cons_of_mem n hx)
    have hstep : jsonResolveGenres db acc
        (JValue.jstr n :: rest.map JValue.jstr) =
        jsonResolveGenres (get_or_create_genre db (strStrip n))
          (acc ++ [strStrip n]) (rest.map JValue.jstr) := by
      simp [jsonResolveGenres, jTruthy, hn.1]
    rw [List.map_cons, hstep, strStrip_eq_self n hn.2, ih hrest]
    simp

/-- One JSON iteration on an exported record of a hygienic book appends
exactly that book (every field is read back verbatim, and structure eta
restores the record). -/
theorem jsonStep_export (db : DB) (b : DBBook) (i : Nat)
    (hb : jsonHygBook b) :
    jsonStep db (export_to_json_book b) i =
      (Outcome.success,
        { b.genreNames.foldl get_or_create_genre
            (b.authorNames.foldl get_or_create_author db) with
          books := (b.genreNames.foldl get_or_create_genre
            (b.authorNames.foldl get_or_create_author db)).books ++ [b] }) := by
  obtain ⟨hT, hA, hG⟩ := hb
  have ht : jStripField (JValue.jstr b.title) = .ok b.title := by
    show Except.ok (strStrip b.title) = _
    rw [strStrip_eq_self b.title hT.2]
  simp [jsonStep, export_to_json_book, jgetD, jlookup, ht, hT.1, wrapStr,
    jsonIterable, jsonResolveAuthors_strs b.authorNames hA,
    jsonResolveGenres_strs b.genreNames hG]

theorem jsonRound_run (bs : List DBBook) (h : ∀ b ∈ bs, jsonHygBook b) :
    ∀ (db : DB) (i : Nat) (acc : ImportResult),
      (runImport jsonStep (bs.map export_to_json_book) db i acc).2.books =
        db.books ++ bs := by
  induction bs with
  | nil => intro db i acc; simp [runImport]
  | cons b rest ih =>
    intro db i acc
    rw [List.map_cons, runImport_cons,
      jsonStep_export db b i (h b (List.mem_cons_self b rest)),
      ih (fun x hx => h x (List.mem_cons_of_mem b hx))]
    simp [foldl_goc_genre_books, foldl_goc_author_books]

/-- C4 counterexample: the CSV round trip does not reproduce the author
set when an author name contains a comma — export joins names with
`", "` and import splits the cell on `","`, so the single author
`Herbert, Frank` comes back as the two authors `Herbert` and `Frank`. -/
theorem c4_counterexample :
    ((import_from_csv (export_to_csv
        { books := [{ title := "Dune", authorNames := ["Herbert, Frank"] }] })
        {}).2.books.map DBBook.authorNames) = [["Herbert", "Frank"]] ∧
    (["Herbert", "Frank"] : List String) ≠ ["Herbert, Frank"] := by
  exact ⟨rfl, by decide⟩

/-- C4 amended: the JSON round trip into an empty catalog reproduces every
book exactly (all generic-schema fields) whenever titles and entity names
are trimmed and non-empty; the CSV round trip reproduces the claimed
title/status/rating/author-set/genre-set only under the additional
condition that entity names are comma-free (and status is a trimmed
non-empty string with the rating in range, as every import-created book
satisfies). -/
theorem c4_amended :
    (∀ db : DB, (∀ b ∈ db.books, csvHygBook b) →
      ((import_from_csv (export_to_csv db) {}).2.books).map claimFields =
        db.books.map claimFields) ∧
    (∀ db : DB, (∀ b ∈ db.books, jsonHygBook b) →
      ∃ res db2, import_from_json (some (export_to_json db)) {} =
          .ok (res, db2) ∧ db2.books = db.books) := by
  constructor
  · intro db h
    show ((runImport csvStep (db.books.map export_to_csv_row)
        {} 2 {}).2.books).map claimFields = _
    rw [csvRound_run db.books h]
    rfl
  · intro db h
    refine ⟨(runImport jsonStep (db.books.map export_to_json_book)
        {} 0 {}).1,
      (runImport jsonStep (db.books.map export_to_json_book) {} 0 {}).2,
      rfl, ?_⟩
    rw [jsonRound_run db.books h]
    rfl

/-- C4 witness: a concrete one-book hygienic catalog round-trips through
both the CSV and the JSON paths. -/
theorem c4_amended_witness :
    (((import_from_csv (export_to_csv
        { books := [{ title := "Dune", authorNames := ["Frank Herbert"], genreNames := ["scifi"] }] })
        {}).2.books).map claimFields =
      ({ books := [{ title := "Dune", authorNames := ["Frank Herbert"], genreNames := ["scifi"] }] } : DB).books.map claimFields) ∧
    (∃ res db2, import_from_json (some (export_to_json
        { books := [{ title := "Dune", authorNames := ["Frank Herbert"], genreNames := ["scifi"] }] })) {} =
        .ok (res, db2) ∧
      db2.books =
        ({ books := [{ title := "Dune", authorNames := ["Frank Herbert"], genreNames := ["scifi"] }] } : DB).books) := by
  constructor
  · exact c4_amended.1 _ (by
      intro b hb
      have hb1 : b = { title := "Dune", authorNames := ["Frank Herbert"], genreNames := ["scifi"] } := by simpa using hb
      subst hb1
      refine ⟨⟨by decide, by decide⟩, ?_, ?_,
        ⟨"planned", rfl, by decide, by decide⟩, Or.inl rfl⟩
      · intro n hn
        have hn1 : n = "Frank Herbert" := by simpa using hn
        subst hn1
        exact ⟨⟨by decide, by decide⟩, by decide⟩
      · intro n hn
        have hn1 : n = "scifi" := by simpa using hn
        subst hn1
        exact ⟨⟨by decide, by decide⟩, by decide⟩)
  · exact c4_amended.2 _ (by
      intro b hb
      have hb1 : b = { title := "Dune", authorNames := ["Frank Herbert"], genreNames := ["scifi"] } := by simpa using hb
      subst hb1
      refine ⟨⟨by decide, by decide⟩, ?_, ?_⟩
      · intro n hn
        have hn1 : n = "Frank Herbert" := by simpa using hn
        subst hn1
        exact ⟨by decide, by decide⟩
      · intro n hn
        have hn1 : n = "scifi" := by simpa using hn
        subst hn1
        exact ⟨by decide, by decide⟩)

end BookNest
